import Mathlib

/-!
Verification of the reservation-sniper core of the `ai-agents-platform`
repository: slot matcher (`utils/availability_filter.py`), booking-handle
utilities (`utils/slug_utils.py`), job store (`utils/reservation_store.py`),
and acquisition engine (`utils/reservation_sniper.py`).

The Python source is shallowly embedded: dictionaries become structures with
`Option` fields for keys that may be absent, exceptions become `Except`,
the SQLite rows become a list of records, and the unbounded poll loop is
driven by an explicit finite schedule of environment responses (running out
of schedule yields `none`).
-/

namespace Sniper

/-! ## Slot matcher (`utils/availability_filter.py`) -/

/-- A parsed time of day, standing for the `datetime` produced by
`parse_time` (only the hour and minute fields are ever read). -/
structure TimeOfDay where
  hour : Nat
  minute : Nat
deriving DecidableEq, Repr

/-- Hour matcher for the `strptime` directive `%I`: the ordered regex
alternation `1[0-2]|0[1-9]|[1-9]`.  Greedy two-digit matching agrees with
the backtracking regex here because a rejected second digit could never be
consumed by the following literal `:` either. -/
def matchHour : List Char → Option (Nat × List Char)
  | '1' :: '0' :: r => some (10, r)
  | '1' :: '1' :: r => some (11, r)
  | '1' :: '2' :: r => some (12, r)
  | '0' :: c :: r => if '1' ≤ c ∧ c ≤ '9' then some (c.toNat - 48, r) else none
  | c :: r => if '1' ≤ c ∧ c ≤ '9' then some (c.toNat - 48, r) else none
  | [] => none

/-- Minute matcher for the `strptime` directive `%M`: the ordered regex
alternation `[0-5]\d|\d`.  As for the hour, the greedy-first strategy agrees
with regex backtracking: a digit rejected by the two-digit branch can never
be consumed by the whitespace or AM/PM part that follows. -/
def matchMinute : List Char → Option (Nat × List Char)
  | c1 :: c2 :: r =>
    if '0' ≤ c1 ∧ c1 ≤ '5' ∧ c2.isDigit then
      some ((c1.toNat - 48) * 10 + (c2.toNat - 48), r)
    else if c1.isDigit then some (c1.toNat - 48, c2 :: r)
    else none
  | [c] => if c.isDigit then some (c.toNat - 48, []) else none
  | [] => none

/-- AM/PM matcher for the `strptime` directive `%p` (case-insensitive,
as `_strptime` compiles its pattern with `IGNORECASE`).  Returns `true`
for PM. -/
def matchAmPm : List Char → Option (Bool × List Char)
  | c1 :: c2 :: r =>
    if (c1 = 'A' ∨ c1 = 'a') ∧ (c2 = 'M' ∨ c2 = 'm') then some (false, r)
    else if (c1 = 'P' ∨ c1 = 'p') ∧ (c2 = 'M' ∨ c2 = 'm') then some (true, r)
    else none
  | _ => none

/-- One-or-more whitespace, the translation `\s+` of a literal space in a
`strptime` format string (ASCII approximation of the regex class). -/
def matchSpaces1 : List Char → Option (List Char)
  | c :: r => if c.isWhitespace then some (r.dropWhile Char.isWhitespace) else none
  | [] => none

/-- Convert a matched 12-hour clock value and AM/PM flag to a 24-hour
`TimeOfDay`, as `datetime.strptime` does for `%I`/`%p`. -/
def to24Hour (h : Nat) (pm : Bool) (m : Nat) : TimeOfDay :=
  if pm then ⟨if h = 12 then 12 else h + 12, m⟩
  else ⟨if h = 12 then 0 else h, m⟩

/-- Try one of the two formats of `parse_time`: `%I:%M %p` when
`withSpace` is `true`, `%I:%M%p` otherwise.  `strptime` demands that the
whole string be consumed. -/
def tryFormat (withSpace : Bool) (cs : List Char) : Option TimeOfDay := do
  let (h, cs) ← matchHour cs
  match cs with
  | ':' :: cs => do
    let (m, cs) ← matchMinute cs
    let cs ← if withSpace then matchSpaces1 cs else some cs
    let (pm, cs) ← matchAmPm cs
    match cs with
    | [] => some (to24Hour h pm m)
    | _ => none
  | _ => none

/-- `str.strip()`: remove leading and trailing whitespace (ASCII
approximation). -/
def pyStrip (cs : List Char) : List Char :=
  ((cs.dropWhile Char.isWhitespace).reverse.dropWhile Char.isWhitespace).reverse

/-- `parse_time` from `utils/availability_filter.py`: strip the input, then
try the formats `"%I:%M %p"` and `"%I:%M%p"` in order; `None` when both
fail. -/
def parse_time (time_str : String) : Option TimeOfDay :=
  let cs := pyStrip time_str.toList
  match tryFormat true cs with
  | some t => some t
  | none => tryFormat false cs

/-- `_time_distance_minutes`: absolute distance in minutes between two
times, ignoring the date. -/
def time_distance_minutes (t1 t2 : TimeOfDay) : Nat :=
  (((t1.hour * 60 + t1.minute : Nat) : Int) - ((t2.hour * 60 + t2.minute : Nat) : Int)).natAbs

/-- A candidate slot: the embedding of the slot dictionaries handled by the
matcher and the engine.  `tag` stands for the identity of the rest of the
dictionary, so that distinct slots with equal fields stay distinguishable;
optional fields model keys that may be absent. -/
structure Slot where
  tag : Nat
  time? : Option String
  config_id? : Option String
  type? : Option String
deriving DecidableEq, Repr

/-- `slot.get('time', '')`. -/
def slotTime (s : Slot) : String := s.time?.getD ""

/-- `min(_time_distance_minutes(slot_time, p) for p in parsed_prefs)`:
minimum distance over a (nonempty in all uses) list of parsed preferred
times. -/
def minDistToPrefs (parsed_prefs : List TimeOfDay) (t : TimeOfDay) : Nat :=
  match parsed_prefs.map (time_distance_minutes t) with
  | [] => 0
  | d :: ds => ds.foldl min d

/-- The scoring step of `filter_slots_by_time`: the slot together with its
distance when its time parses and the distance fits the window, dropped
otherwise. -/
def scoreSlot (parsed_prefs : List TimeOfDay) (window_minutes : Nat) (slot : Slot) :
    Option (Nat × Slot) :=
  match parse_time (slotTime slot) with
  | none => none
  | some st =>
    let d := minDistToPrefs parsed_prefs st
    if d ≤ window_minutes then some (d, slot) else none

/-- `filter_slots_by_time` from `utils/availability_filter.py`.  The Python
`list.sort(key=lambda x: x[0])` is a stable sort by the distance component;
`List.insertionSort` with `≤` on the first component is stable in the same
sense, hence produces the identical list. -/
def filter_slots_by_time (slots : List Slot) (preferred_times : List String)
    (window_minutes : Nat) : List Slot :=
  if slots = [] then []
  else if preferred_times = [] then slots
  else
    let parsed_prefs := preferred_times.filterMap parse_time
    if parsed_prefs = [] then slots
    else
      let scored := slots.filterMap (scoreSlot parsed_prefs window_minutes)
      (scored.insertionSort (fun a b => a.1 ≤ b.1)).map Prod.snd

/-- One iteration of the fallback scan of `pick_best_slot`: skip an
unparseable slot, otherwise keep the strictly closer of the accumulator and
the slot (`best`/`best_dist` start as `None`/infinity, so the first
parseable slot always wins). -/
def fallbackStep (parsed_prefs : List TimeOfDay) (acc : Option (Slot × Nat))
    (slot : Slot) : Option (Slot × Nat) :=
  match parse_time (slotTime slot) with
  | none => acc
  | some st =>
    let d := minDistToPrefs parsed_prefs st
    match acc with
    | none => some (slot, d)
    | some (b, bd) => if d < bd then some (slot, d) else some (b, bd)

/-- The fallback scan of `pick_best_slot` (its `for slot in slots` loop with
`best`/`best_dist` accumulators and a strict `<` comparison). -/
def fallbackBest (parsed_prefs : List TimeOfDay) (slots : List Slot) :
    Option (Slot × Nat) :=
  slots.foldl (fallbackStep parsed_prefs) none

/-- `pick_best_slot` from `utils/availability_filter.py`.  The final Python
line `return best or slots[0]` tests dictionary truthiness: `best` is either
`None` or a slot whose `time` key parsed (hence a non-empty, truthy dict),
so it is equivalent to the `Option` match below. -/
def pick_best_slot (slots : List Slot) (preferred_times : List String)
    (window_minutes : Nat) : Option Slot :=
  if slots = [] then none
  else if preferred_times = [] then slots.head?
  else
    match filter_slots_by_time slots preferred_times window_minutes with
    | s :: _ => some s
    | [] =>
      let parsed_prefs := preferred_times.filterMap parse_time
      if parsed_prefs = [] then slots.head?
      else
        match fallbackBest parsed_prefs slots with
        | some (b, _) => some b
        | none => slots.head?

/-- The distance a slot is scored with: the minimum minute-distance from
the slot's parsed time to any parsed preferred time (`none` when the slot
time does not parse). -/
def slotDist? (parsed_prefs : List TimeOfDay) (s : Slot) : Option Nat :=
  (parse_time (slotTime s)).map (minDistToPrefs parsed_prefs)

/-- Whether `filter_slots_by_time` retains a slot: its time parses and its
minimum distance fits the window. -/
def slotEligible (parsed_prefs : List TimeOfDay) (window_minutes : Nat)
    (s : Slot) : Bool :=
  match slotDist? parsed_prefs s with
  | some d => d ≤ window_minutes
  | none => false

instance : IsTotal (Nat × Slot) (fun a b => a.1 ≤ b.1) :=
  ⟨fun a b => Nat.le_total a.1 b.1⟩

instance : IsTrans (Nat × Slot) (fun a b => a.1 ≤ b.1) :=
  ⟨fun _ _ _ h1 h2 => le_trans h1 h2⟩

/-! ## Booking-handle utilities (`utils/slug_utils.py`) -/

/-- The characters of `CONFIG_ID_SEPARATOR = '|||'`. -/
def pipes : List Char := ['|', '|', '|']

/-- `config_id.split('|||')`: Python string splitting on a fixed non-empty
separator, scanning left to right and cutting at each non-overlapping
occurrence.  Specialised to the concrete separator of the source; with
fewer than three characters left no separator can start, so the scan moves
one character. -/
def pySplit : List Char → List (List Char)
  | [] => [[]]
  | c1 :: c2 :: c3 :: rest =>
    if c1 == '|' && c2 == '|' && c3 == '|' then
      [] :: pySplit rest
    else
      match pySplit (c2 :: c3 :: rest) with
      | [] => [[c1]]
      | h :: t => (c1 :: h) :: t
  | c :: cs =>
    match pySplit cs with
    | [] => [[c]]
    | h :: t => (c :: h) :: t

/-- The three components of a booking handle, the dictionary returned by
`parse_config_id`. -/
structure ConfigParts where
  venue_slug : String
  date : String
  time_text : String
deriving DecidableEq, Repr

/-- Equality of parse outcomes is decidable, so the round trip can be
evaluated on concrete handles. -/
instance : DecidableEq (Except String ConfigParts) :=
  fun a b =>
    match a, b with
    | Except.ok x, Except.ok y =>
      if h : x = y then isTrue (by rw [h]) else
        isFalse (fun hc => h (by injection hc))
    | Except.error x, Except.error y =>
      if h : x = y then isTrue (by rw [h]) else
        isFalse (fun hc => h (by injection hc))
    | Except.ok _, Except.error _ => isFalse (fun hc => Except.noConfusion hc)
    | Except.error _, Except.ok _ => isFalse (fun hc => Except.noConfusion hc)

/-- `parse_config_id` from `utils/slug_utils.py`: split on the separator and
demand exactly three parts, raising `ValueError` (here `Except.error`)
otherwise. -/
def parse_config_id (config_id : String) : Except String ConfigParts :=
  match pySplit config_id.toList with
  | [a, b, c] => Except.ok ⟨String.mk a, String.mk b, String.mk c⟩
  | _ =>
    Except.error ("Invalid config_id format: " ++ config_id ++
      ". Expected format: venue_slug|||date|||time_text")

/-- `make_config_id` from `utils/slug_utils.py`:
`CONFIG_ID_SEPARATOR.join([venue_slug, date, time_text])`. -/
def make_config_id (venue_slug date time_text : String) : String :=
  venue_slug ++ "|||" ++ date ++ "|||" ++ time_text

/-! ## Job store (`utils/reservation_store.py`)

The SQLite tables become lists of records.  Wall-clock timestamps
(`created_at`, `updated_at`, the output of `_now_est`) are not modelled as
state; where a query compares against `_now_est()` the current time string
is taken as a parameter.  Fields of the rows that no embedded operation
reads (`notes`, timestamps, `venue_id`, `confirmation_token`) are omitted. -/

/-- A row of the `sniper_jobs` table, deserialized as by
`_deserialize_sniper_job` (`preferred_times` as a string list,
`auto_resolve_conflicts` as a boolean). -/
structure SniperJob where
  id : Nat
  venue_slug : String
  date : String
  preferred_times : List String
  party_size : Nat
  time_window_minutes : Nat
  status : String
  poll_count : Nat
  max_attempts : Nat
  scheduled_at : String
  auto_resolve_conflicts : Bool
  reservation_id : Option Nat
deriving DecidableEq, Repr

/-- A row of the `reservations` table (the fields written and read by the
engine). -/
structure Reservation where
  id : Nat
  platform : String
  restaurant_name : String
  date : String
  time : String
  party_size : Nat
  confirmation_number : Option String
  status : String
deriving DecidableEq, Repr

/-- The durable store: both tables plus the reservation autoincrement
counter. -/
structure StoreState where
  jobs : List SniperJob
  reservations : List Reservation
  next_reservation_id : Nat
deriving DecidableEq, Repr

/-- `get_sniper_job`: `SELECT * FROM sniper_jobs WHERE id = ?`. -/
def get_sniper_job (st : StoreState) (job_id : Nat) : Option SniperJob :=
  st.jobs.find? (fun j => j.id == job_id)

/-- The field patch passed by the engine to `update_sniper_job`: the source
calls it only with a `status` and optionally a `reservation_id` entry. -/
structure JobPatch where
  status : Option String
  reservation_id : Option (Option Nat)
deriving DecidableEq, Repr

/-- Apply a `JobPatch` to one row. -/
def apply_job_patch (p : JobPatch) (j : SniperJob) : SniperJob :=
  let j := match p.status with
    | some s =>
      { id := j.id, venue_slug := j.venue_slug, date := j.date,
        preferred_times := j.preferred_times, party_size := j.party_size,
        time_window_minutes := j.time_window_minutes, status := s,
        poll_count := j.poll_count, max_attempts := j.max_attempts,
        scheduled_at := j.scheduled_at,
        auto_resolve_conflicts := j.auto_resolve_conflicts,
        reservation_id := j.reservation_id }
    | none => j
  match p.reservation_id with
    | some r =>
      { id := j.id, venue_slug := j.venue_slug, date := j.date,
        preferred_times := j.preferred_times, party_size := j.party_size,
        time_window_minutes := j.time_window_minutes, status := j.status,
        poll_count := j.poll_count, max_attempts := j.max_attempts,
        scheduled_at := j.scheduled_at,
        auto_resolve_conflicts := j.auto_resolve_conflicts,
        reservation_id := r }
    | none => j

/-- `update_sniper_job`: `UPDATE sniper_jobs SET ... WHERE id = ?`; the
boolean is `cursor.rowcount > 0`. -/
def update_sniper_job (st : StoreState) (job_id : Nat) (p : JobPatch) :
    StoreState × Bool :=
  (⟨st.jobs.map (fun j => if j.id == job_id then apply_job_patch p j else j),
    st.reservations, st.next_reservation_id⟩,
   st.jobs.any (fun j => j.id == job_id))

/-- One row after `poll_count = poll_count + 1`. -/
def bump_poll (j : SniperJob) : SniperJob :=
  { id := j.id, venue_slug := j.venue_slug, date := j.date,
    preferred_times := j.preferred_times, party_size := j.party_size,
    time_window_minutes := j.time_window_minutes, status := j.status,
    poll_count := j.poll_count + 1, max_attempts := j.max_attempts,
    scheduled_at := j.scheduled_at,
    auto_resolve_conflicts := j.auto_resolve_conflicts,
    reservation_id := j.reservation_id }

/-- `increment_poll_count`:
`UPDATE sniper_jobs SET poll_count = poll_count + 1 WHERE id = ?`. -/
def increment_poll_count (st : StoreState) (job_id : Nat) : StoreState × Bool :=
  (⟨st.jobs.map (fun j => if j.id == job_id then bump_poll j else j),
    st.reservations, st.next_reservation_id⟩,
   st.jobs.any (fun j => j.id == job_id))

/-- `add_reservation`: INSERT with autoincrement id, returning
`cursor.lastrowid`. -/
def add_reservation (st : StoreState) (platform restaurant_name date time : String)
    (party_size : Nat) (confirmation_number : Option String) (status : String) :
    Nat × StoreState :=
  let rid := st.next_reservation_id
  (rid,
   ⟨st.jobs,
    st.reservations ++
      [⟨rid, platform, restaurant_name, date, time, party_size,
        confirmation_number, status⟩],
    rid + 1⟩)

/-- The terminal job statuses of the data model. -/
def terminalStatuses : List String := ["completed", "failed", "cancelled"]

/-- Modelled from the spec: the store method `cancel_sibling_sniper_jobs`
is invoked by `run_job` in `utils/reservation_sniper.py` but its definition
is missing from the provided sources.  Spec 4.2:
`cancelSiblingJobs(excludeJobId, resourceId, date) -> count` marks other
non-terminal jobs targeting the same resource+date as cancelled and returns
how many were cancelled. -/
def cancel_sibling_sniper_jobs (st : StoreState) (exclude_job_id : Nat)
    (venue_slug date : String) : StoreState × Nat :=
  let shouldCancel : SniperJob → Bool := fun j =>
    j.id != exclude_job_id && j.venue_slug == venue_slug && j.date == date &&
      !(terminalStatuses.contains j.status)
  (⟨st.jobs.map (fun j =>
      if shouldCancel j then (apply_job_patch ⟨some "cancelled", none⟩ j) else j),
    st.reservations, st.next_reservation_id⟩,
   (st.jobs.filter shouldCancel).length)

/-- Whether a job satisfies `status = 'pending' AND scheduled_at <= ?`,
the WHERE clause shared by `get_pending_sniper_jobs` and
`claim_next_sniper_job`.  The `sniper_jobs.scheduled_at` column is TEXT, so
SQLite compares the stored text and the bound `_now_est()` string with the
BINARY collation, i.e. bytewise over UTF-8 — which coincides with the
codepoint-lexicographic `String` order used here. -/
def jobIsDue (j : SniperJob) (now : String) : Bool :=
  j.status == "pending" && decide (j.scheduled_at ≤ now)

/-- `get_pending_sniper_jobs` with the output of `_now_est()` taken as the
`now` parameter: pending, due jobs ordered by `scheduled_at`. -/
def get_pending_sniper_jobs (st : StoreState) (now : String) : List SniperJob :=
  (st.jobs.filter (fun j => jobIsDue j now)).insertionSort
    (fun a b => a.scheduled_at ≤ b.scheduled_at)

/-- The SELECT phase of `claim_next_sniper_job`: `SELECT id FROM sniper_jobs
WHERE status = 'pending' AND scheduled_at <= ? ORDER BY scheduled_at
LIMIT 1`.  A pure read: it does not change the store. -/
def claim_select (st : StoreState) (now : String) : Option Nat :=
  (((st.jobs.filter (fun j => jobIsDue j now)).insertionSort
      (fun a b => a.scheduled_at ≤ b.scheduled_at)).head?).map (fun j => j.id)

/-- The UPDATE phase of `claim_next_sniper_job`: the conditional update
`UPDATE sniper_jobs SET status = 'active' WHERE id = ? AND status =
'pending'`, whose affected-row count decides success; on zero rows the
caller gets `none` (another process claimed the job), otherwise the claimed
job.  Each SQL statement executes atomically, so this function is the unit
of interleaving for concurrent callers. -/
def claim_finish (st : StoreState) (job_id : Nat) : StoreState × Option SniperJob :=
  let rowcount :=
    (st.jobs.filter (fun j => j.id == job_id && j.status == "pending")).length
  let st' : StoreState :=
    ⟨st.jobs.map (fun j =>
        if j.id == job_id && j.status == "pending" then
          apply_job_patch ⟨some "active", none⟩ j
        else j),
      st.reservations, st.next_reservation_id⟩
  if rowcount = 0 then (st', none) else (st', get_sniper_job st' job_id)

/-- `claim_next_sniper_job` as executed by a single caller: SELECT phase
then conditional-UPDATE phase. -/
def claim_next_sniper_job (st : StoreState) (now : String) :
    StoreState × Option SniperJob :=
  match claim_select st now with
  | none => (st, none)
  | some jid => claim_finish st jid

/-! ## Notifier (`utils/notification.py`)

`SniperNotifier` delegates delivery to `utils/email_sender.EmailSender`,
which is missing from the provided sources; per the spec (§6, §7) delivery
is best-effort and notifier failures never surface as exceptions, so the
sender outcome is modelled as a plain boolean. -/

/-- The delivery configuration of a `SniperNotifier`: whether a sender
exists and the configured destination address. -/
structure NotifierConfig where
  has_sender : Bool
  to_email : Option String
deriving DecidableEq, Repr

/-- `SniperNotifier.is_configured`: a sender exists and the destination
address is truthy. -/
def notifier_is_configured (c : NotifierConfig) : Bool :=
  c.has_sender && (match c.to_email with
    | none => false
    | some s => s != "")

/-- Modelled from the spec: `EmailSender.send` (module
`utils/email_sender.py`, missing from the provided sources) is best-effort
per spec §6/§7 — a delivery failure yields `false`, never an exception —
so a notifier call reduces to the boolean `send_outcome` of the attempt.
This is `SniperNotifier.notify_success` / `notify_failure`: skip (returning
`false`) when unconfigured, otherwise return the sender outcome. -/
def notifier_deliver (c : NotifierConfig) (send_outcome : Bool) : Bool :=
  if notifier_is_configured c then send_outcome else false

/-! ## Acquisition engine (`utils/reservation_sniper.py`) -/

/-- A provider response to `make_reservation` or
`resolve_reservation_conflict` (the dictionary keys the engine reads). -/
structure ProviderBookResult where
  success : Bool
  status : Option String
  error : Option String
  reservation_id : Option String
deriving DecidableEq, Repr

/-- The provider behaviour observable during one poll attempt:
each call either returns normally or raises (`Except.error`).  The engine
makes each of these calls at most once per poll, so argument-independent
responses cover every provider behaviour. -/
structure PollEnv where
  availability : Except String (List Slot)
  booking : Except String ProviderBookResult
  conflict_resolution : Except String ProviderBookResult
deriving Repr

/-- The dictionary returned by `_poll_once` / `_resolve_conflict`: absent
keys are `none` (`false` for `event_only`, which is read back via
`result.get('event_only')`).  The `time_slot` key always duplicates `time`
and is not modelled separately. -/
structure PollResult where
  booked : Bool
  time : Option String
  reservation_id : Option String
  error : Option String
  event_only : Bool
deriving DecidableEq, Repr

/-- `_resolve_conflict`: derive venue and time text from the booking handle
(falling back to the job fields when it does not decompose), then instruct
the provider to cancel-and-continue; any provider exception becomes a
non-fatal poll error. -/
def resolve_conflict (env : PollEnv) (job : SniperJob) (config_id : String)
    (slot : Slot) : PollResult :=
  let _vt : String × String :=
    match parse_config_id config_id with
    | Except.ok p => (p.venue_slug, p.time_text)
    | Except.error _ => (job.venue_slug, slotTime slot)
  -- `_vt` is passed to the provider call, whose modelled response does not
  -- depend on its arguments.
  match env.conflict_resolution with
  | Except.error e =>
    ⟨false, none, none, some ("Conflict resolution failed: " ++ e), false⟩
  | Except.ok result =>
    if result.success then ⟨true, some (slotTime slot), result.reservation_id, none, false⟩
    else ⟨false, none, none, some (result.error.getD "Conflict resolution failed"), false⟩

/-- `_poll_once`: one availability check plus booking attempt.  Provider
exceptions (`Except.error`) are caught at the call site and converted to
`booked=false` results, exactly as the `try/except` blocks of the source.
(The source indexes `best['time']` when synthesizing a handle; that is
`slot.get('time', '')` here, the difference being observable only for a
slot lacking both `config_id` and `time`, where Python raises `KeyError`.) -/
def poll_once (env : PollEnv) (job : SniperJob) : PollResult :=
  match env.availability with
  | Except.error e =>
    ⟨false, none, none, some ("Availability check failed: " ++ e), false⟩
  | Except.ok slots =>
    if slots = [] then ⟨false, none, none, some "No slots available", false⟩
    else
      let event_only := slots.all (fun s => s.type? == some "event")
      match pick_best_slot slots job.preferred_times job.time_window_minutes with
      | none => ⟨false, none, none, some "No matching slots in time window", event_only⟩
      | some best =>
        let config_id :=
          match best.config_id? with
          | some c =>
            if c = "" then make_config_id job.venue_slug job.date (slotTime best) else c
          | none => make_config_id job.venue_slug job.date (slotTime best)
        match env.booking with
        | Except.error e => ⟨false, none, none, some ("Booking failed: " ++ e), false⟩
        | Except.ok result =>
          if result.success then
            ⟨true, some (slotTime best), result.reservation_id, none, false⟩
          else if result.status == some "conflict" && job.auto_resolve_conflicts then
            resolve_conflict env job config_id best
          else ⟨false, none, none, some (result.error.getD "Booking unsuccessful"), false⟩

/-- One iteration of the external world as seen by `run_job`: the value of
the shutdown flag at the top-of-loop check, and the provider behaviour of
the iteration's poll. -/
structure StepEnv where
  shutdown : Bool
  poll : PollEnv
deriving Repr

/-- A notification handed to the `SniperNotifier` (the engine ignores the
delivery boolean, so recording the event suffices). -/
inductive NotifyEvent where
  | success (job : SniperJob) (result : PollResult)
  | failure (job : SniperJob) (reason : String)
deriving DecidableEq, Repr

/-- The engine-visible state: the store plus the log of notifications
requested so far. -/
structure EngineState where
  store : StoreState
  notifications : List NotifyEvent
deriving DecidableEq, Repr

/-- The dictionary returned by `run_job` (keys outcome / reason / time /
reservation_id / poll_count, absent ones `none`). -/
structure RunResult where
  outcome : String
  reason : Option String
  time : Option String
  reservation_id : Option String
  poll_count : Option Nat
deriving DecidableEq, Repr

/-- `error_counts[error] += 1` on a `Counter` kept as an association list in
insertion order. -/
def bumpCount : List (String × Nat) → String → List (String × Nat)
  | [], e => [(e, 1)]
  | (k, n) :: rest, e =>
    if k == e then (k, n + 1) :: rest else (k, n) :: bumpCount rest e

/-- `Counter.most_common()`: entries sorted by descending count; CPython
uses a stable sort over insertion order, which the stable
`List.insertionSort` reproduces. -/
def mostCommon (cs : List (String × Nat)) : List (String × Nat) :=
  cs.insertionSort (fun a b => b.2 ≤ a.2)

/-- The failure reason composed at exhaustion by `run_job` (base message,
aggregated poll errors, and the event-only note). -/
def buildFailureReason (max_attempts : Nat) (error_counts : List (String × Nat))
    (event_only_count : Nat) : String :=
  let reason := "Max attempts (" ++ toString max_attempts ++ ") reached"
  let reason :=
    if error_counts.isEmpty then reason
    else
      (mostCommon error_counts).foldl
        (fun acc ec => acc ++ "\n- " ++ ec.1 ++ " (" ++ toString ec.2 ++ "x)")
        (reason ++ "\n\n## Poll Errors")
  if 0 < event_only_count then
    reason ++ "\n\nNote: " ++ toString event_only_count ++
      " poll(s) found only event-style listings (DayOfEventCard UI) instead of standard time slots. This venue may only have special event bookings for this date."
  else reason

/-- The `while not self._shutdown` loop of `run_job`, driven by the finite
schedule of environment behaviours; an exhausted schedule yields `none`
(the run is still in flight).  `job` is the loop variable as last assigned
(its `poll_count` is reported on shutdown); `event_only_count` and
`error_counts` are the local diagnostic accumulators. -/
def run_job_loop (job_id : Nat) :
    List StepEnv → EngineState → SniperJob → Nat → List (String × Nat) →
    Option (EngineState × RunResult)
  | [], _, _, _, _ => none
  | step :: rest, es, job, event_only_count, error_counts =>
    if step.shutdown then
      -- Loop condition false: revert to pending, outcome `shutdown`.
      let store := (update_sniper_job es.store job_id ⟨some "pending", none⟩).1
      some (⟨store, es.notifications⟩,
        ⟨"shutdown", none, none, none, some job.poll_count⟩)
    else
      match get_sniper_job es.store job_id with
      | none => none   -- Python would raise here; jobs are never deleted, so unreachable
      | some job =>
        if job.max_attempts ≤ job.poll_count then
          let reason := buildFailureReason job.max_attempts error_counts event_only_count
          let store := (update_sniper_job es.store job_id ⟨some "failed", none⟩).1
          some (⟨store, es.notifications ++ [NotifyEvent.failure job reason]⟩,
            ⟨"failed", some reason, none, none, some job.poll_count⟩)
        else
          let store := (increment_poll_count es.store job_id).1
          let result := poll_once step.poll job
          if result.booked then
            let idst := add_reservation store "resy" job.venue_slug job.date
              (result.time.getD "") job.party_size result.reservation_id "confirmed"
            let store := (update_sniper_job idst.2 job_id
              ⟨some "completed", some (some idst.1)⟩).1
            let store :=
              (cancel_sibling_sniper_jobs store job_id job.venue_slug job.date).1
            match get_sniper_job store job_id with
            | none => none   -- unreachable for the same reason as above
            | some job2 =>
              some (⟨store, es.notifications ++ [NotifyEvent.success job2 result]⟩,
                ⟨"booked", none, result.time, result.reservation_id, some job2.poll_count⟩)
          else
            let event_only_count :=
              if result.event_only then event_only_count + 1 else event_only_count
            let error_counts :=
              match result.error with
              | some e => bumpCount error_counts e
              | none => error_counts
            -- time.sleep(poll_interval) does not touch engine state.
            run_job_loop job_id rest ⟨store, es.notifications⟩ job event_only_count
              error_counts

/-- `run_job`: load the job (not-found is a terminal failure outcome with no
state change), mark it active, then enter the poll loop. -/
def run_job (sched : List StepEnv) (es : EngineState) (job_id : Nat) :
    Option (EngineState × RunResult) :=
  match get_sniper_job es.store job_id with
  | none =>
    some (es, ⟨"failed", some ("Job " ++ toString job_id ++ " not found"),
      none, none, none⟩)
  | some job =>
    let store := (update_sniper_job es.store job_id ⟨some "active", none⟩).1
    run_job_loop job_id sched ⟨store, es.notifications⟩ job 0 []

/-! ## Example fixtures used by concrete evaluations -/

/-- A pending job as created by `create_job` (fresh poll count). -/
def exJob : SniperJob :=
  ⟨1, "fish-cheeks", "2026-03-01", ["7:00 PM"], 2, 60, "pending", 0, 3,
    "2026-02-22T09:00:00", true, none⟩

/-- A sibling job: same venue and date, different id, non-terminal. -/
def exSibling : SniperJob :=
  ⟨2, "fish-cheeks", "2026-03-01", ["7:30 PM"], 2, 60, "pending", 1, 3,
    "2026-02-22T09:00:00", true, none⟩

/-- A provider behaviour whose availability call returns one bookable
preferred-time slot and whose booking call succeeds. -/
def exGoodEnv : PollEnv :=
  ⟨Except.ok [⟨1, some "7:00 PM", some "fish-cheeks|||2026-03-01|||7:00 PM", none⟩],
   Except.ok ⟨true, none, none, some "RES123"⟩,
   Except.ok ⟨false, none, none, none⟩⟩

/-- A provider behaviour whose every call raises. -/
def exRaisingEnv : PollEnv :=
  ⟨Except.error "Connection timeout",
   Except.error "Network error",
   Except.error "Browser crashed"⟩

/-- A job in the state an operator cancellation leaves it. -/
def exCancelledJob : SniperJob :=
  ⟨1, "fish-cheeks", "2026-03-01", ["7:00 PM"], 2, 60, "cancelled", 0, 5,
    "2026-02-22T09:00:00", true, none⟩

/-- A sequence of `n` conditional-claim updates racing on the same job:
the store-level trace of `n` concurrent `claim_next_sniper_job` callers
that all selected `job_id` in their pure (non-mutating) SELECT phase, in
whatever order SQLite serialized their UPDATE statements.  Since the SELECT
phase reads without writing, every interleaving of the callers' four
atomic statements is captured by some such trace. -/
def claim_race (st : StoreState) (job_id : Nat) :
    Nat → StoreState × List (Option SniperJob)
  | 0 => (st, [])
  | n + 1 =>
    let r := claim_finish st job_id
    let rest := claim_race r.1 job_id n
    (rest.1, r.2 :: rest.2)

/-- Relation between the jobs table at `run_job` entry and the table after
some of the engine's own updates: a row-wise rewrite that touches only the
rows with the running job's id and preserves id, venue and date of every
row. -/
def JobsRel (job_id : Nat) (orig cur : List SniperJob) : Prop :=
  ∃ G : SniperJob → SniperJob,
    cur = orig.map G ∧
    (∀ x, (G x).id = x.id ∧ (G x).venue_slug = x.venue_slug ∧
      (G x).date = x.date) ∧
    (∀ x, x.id ≠ job_id → G x = x)

/-! ## The engine's job-record transitions

The mutations a single job row can undergo when, as claim C4 assumes, the
job is driven only by the engine: `run_job` marking it active (line 136),
the atomic claim (`claim_next_sniper_job`), the shutdown revert (line 211),
the exhaustion failure (line 158, reached only when the check on the
freshly reloaded job at line 146 observed `poll_count >= max_attempts`),
the poll-count increment (line 163, reached only when that same check
failed, i.e. `poll_count < max_attempts` on the reloaded job), the
completion update (lines 178-181), and the sibling cancellation
(spec-modelled, applicable only to non-terminal jobs). -/
inductive EngineStep : SniperJob → SniperJob → Prop where
  | mark_active (j : SniperJob) :
      EngineStep j (apply_job_patch ⟨some "active", none⟩ j)
  | claim_job (j : SniperJob) (h : j.status = "pending") :
      EngineStep j (apply_job_patch ⟨some "active", none⟩ j)
  | revert_pending (j : SniperJob) :
      EngineStep j (apply_job_patch ⟨some "pending", none⟩ j)
  | mark_failed (j : SniperJob) (h : j.max_attempts ≤ j.poll_count) :
      EngineStep j (apply_job_patch ⟨some "failed", none⟩ j)
  | increment (j : SniperJob) (h : j.poll_count < j.max_attempts) :
      EngineStep j
        { id := j.id, venue_slug := j.venue_slug, date := j.date,
          preferred_times := j.preferred_times, party_size := j.party_size,
          time_window_minutes := j.time_window_minutes, status := j.status,
          poll_count := j.poll_count + 1, max_attempts := j.max_attempts,
          scheduled_at := j.scheduled_at,
          auto_resolve_conflicts := j.auto_resolve_conflicts,
          reservation_id := j.reservation_id }
  | complete (j : SniperJob) (rid : Nat) :
      EngineStep j (apply_job_patch ⟨some "completed", some (some rid)⟩ j)
  | cancel_sibling (j : SniperJob) (h : terminalStatuses.contains j.status = false) :
      EngineStep j (apply_job_patch ⟨some "cancelled", none⟩ j)

/-! ## Helper lemmas -/

theorem apply_job_patch_id (p : JobPatch) (j : SniperJob) :
    (apply_job_patch p j).id = j.id := by
  rcases p with ⟨s, r⟩
  cases s <;> cases r <;> rfl

theorem apply_job_patch_poll_count (p : JobPatch) (j : SniperJob) :
    (apply_job_patch p j).poll_count = j.poll_count := by
  rcases p with ⟨s, r⟩
  cases s <;> cases r <;> rfl

theorem apply_job_patch_max_attempts (p : JobPatch) (j : SniperJob) :
    (apply_job_patch p j).max_attempts = j.max_attempts := by
  rcases p with ⟨s, r⟩
  cases s <;> cases r <;> rfl

theorem apply_job_patch_venue_slug (p : JobPatch) (j : SniperJob) :
    (apply_job_patch p j).venue_slug = j.venue_slug := by
  rcases p with ⟨s, r⟩
  cases s <;> cases r <;> rfl

theorem apply_job_patch_date (p : JobPatch) (j : SniperJob) :
    (apply_job_patch p j).date = j.date := by
  rcases p with ⟨s, r⟩
  cases s <;> cases r <;> rfl

theorem apply_job_patch_status_some (s : String) (r : Option (Option Nat))
    (j : SniperJob) : (apply_job_patch ⟨some s, r⟩ j).status = s := by
  cases r <;> rfl

/-- A job found by `get_sniper_job` carries the looked-up id. -/
theorem get_sniper_job_id {st : StoreState} {i : Nat} {j : SniperJob}
    (h : get_sniper_job st i = some j) : j.id = i := by
  simpa using List.find?_some h

/-- Lookup commutes with an id-preserving row-wise rewrite of the jobs
table. -/
theorem find?_id_map (l : List SniperJob) (f : SniperJob → SniperJob)
    (job_id : Nat) (hf : ∀ j, (f j).id = j.id) :
    (l.map f).find? (fun j => j.id == job_id) =
      (l.find? (fun j => j.id == job_id)).map f := by
  rw [List.find?_map]
  have hpf : ((fun j : SniperJob => j.id == job_id) ∘ f) =
      (fun j : SniperJob => j.id == job_id) := by
    funext j
    simp [Function.comp, hf]
  rw [hpf]

theorem get_sniper_job_update_self (st : StoreState) (job_id : Nat)
    (p : JobPatch) :
    get_sniper_job (update_sniper_job st job_id p).1 job_id =
      (get_sniper_job st job_id).map (apply_job_patch p) := by
  unfold get_sniper_job update_sniper_job
  rw [find?_id_map _ _ _ (fun j => by
    split <;> simp [apply_job_patch_id])]
  cases h : st.jobs.find? (fun j => j.id == job_id) with
  | none => rfl
  | some j =>
    have hid : j.id = job_id := by simpa using List.find?_some h
    simp [hid]

theorem get_sniper_job_increment_self (st : StoreState) (job_id : Nat) :
    get_sniper_job (increment_poll_count st job_id).1 job_id =
      (get_sniper_job st job_id).map bump_poll := by
  unfold get_sniper_job increment_poll_count
  rw [find?_id_map _ _ _ (fun j => by
    split <;> simp [bump_poll])]
  cases h : st.jobs.find? (fun j => j.id == job_id) with
  | none => rfl
  | some j =>
    have hid : j.id = job_id := by simpa using List.find?_some h
    simp [hid]

/-- Cancelling siblings never touches the excluded job itself. -/
theorem get_sniper_job_cancel_self (st : StoreState) (job_id : Nat)
    (venue date : String) :
    get_sniper_job (cancel_sibling_sniper_jobs st job_id venue date).1 job_id =
      get_sniper_job st job_id := by
  unfold get_sniper_job cancel_sibling_sniper_jobs
  rw [find?_id_map _ _ _ (fun j => by
    split <;> simp [apply_job_patch_id])]
  cases h : st.jobs.find? (fun j => j.id == job_id) with
  | none => rfl
  | some j =>
    have hid : j.id = job_id := by simpa using List.find?_some h
    simp [hid]

theorem update_sniper_job_store_reservations (st : StoreState) (job_id : Nat)
    (p : JobPatch) :
    (update_sniper_job st job_id p).1.reservations = st.reservations := rfl

/-! ## C9 — shutdown already set before the first poll -/

/-- C9: if `run_job` is invoked while the shutdown flag is already set (the
head of the schedule reports `shutdown = true` at the first top-of-loop
check), the call returns the `shutdown` outcome carrying the pre-call poll
count, the job's status ends as `pending`, its poll count is untouched, and
no poll attempt happens (no notification is emitted, no reservation is
written). -/
theorem run_job_shutdown_first_check (step : StepEnv) (rest : List StepEnv)
    (es : EngineState) (job_id : Nat) (job : SniperJob)
    (hshut : step.shutdown = true)
    (hget : get_sniper_job es.store job_id = some job) :
    ∃ es', run_job (step :: rest) es job_id =
        some (es', ⟨"shutdown", none, none, none, some job.poll_count⟩) ∧
      (∃ job', get_sniper_job es'.store job_id = some job' ∧
        job'.status = "pending" ∧ job'.poll_count = job.poll_count) ∧
      es'.notifications = es.notifications ∧
      es'.store.reservations = es.store.reservations := by
  refine ⟨⟨(update_sniper_job
      (update_sniper_job es.store job_id ⟨some "active", none⟩).1 job_id
      ⟨some "pending", none⟩).1, es.notifications⟩, ?_, ?_, rfl, ?_⟩
  · simp only [run_job, hget, run_job_loop, hshut, if_true]
  · refine ⟨apply_job_patch ⟨some "pending", none⟩
      (apply_job_patch ⟨some "active", none⟩ job), ?_, ?_, ?_⟩
    · rw [get_sniper_job_update_self, get_sniper_job_update_self, hget]
      rfl
    · exact apply_job_patch_status_some _ _ _
    · rw [apply_job_patch_poll_count, apply_job_patch_poll_count]
  · rw [update_sniper_job_store_reservations, update_sniper_job_store_reservations]

/-- Witness for C9 at a concrete store, job and schedule. -/
theorem run_job_shutdown_first_check_witness :
    (⟨true, exGoodEnv⟩ : StepEnv).shutdown = true ∧
    get_sniper_job ⟨[exJob], [], 1⟩ 1 = some exJob ∧
    ∃ es', run_job [⟨true, exGoodEnv⟩] ⟨⟨[exJob], [], 1⟩, []⟩ 1 =
        some (es', ⟨"shutdown", none, none, none, some exJob.poll_count⟩) ∧
      (∃ job', get_sniper_job es'.store 1 = some job' ∧
        job'.status = "pending" ∧ job'.poll_count = exJob.poll_count) ∧
      es'.notifications = ([] : List NotifyEvent) ∧
      es'.store.reservations = ([] : List Reservation) :=
  ⟨rfl, by decide,
    run_job_shutdown_first_check ⟨true, exGoodEnv⟩ [] ⟨⟨[exJob], [], 1⟩, []⟩ 1
      exJob rfl (by decide)⟩

/-! ## C8 — a job found `cancelled` mid-loop -/

/-- C8 (divergence witness): the loop body of `run_job` never inspects the
status of the job it reloads.  Starting a loop iteration on a store whose
job record reads `cancelled` — the exact situation the claim describes —
the engine increments the poll count, polls, books, and re-marks the job
`completed`, instead of ending the loop immediately with the status
untouched. -/
theorem run_job_loop_ignores_cancelled_status :
    get_sniper_job ⟨[exCancelledJob], [], 1⟩ 1 = some exCancelledJob ∧
    exCancelledJob.status = "cancelled" ∧
    (run_job_loop 1 [⟨false, exGoodEnv⟩] ⟨⟨[exCancelledJob], [], 1⟩, []⟩
        exCancelledJob 0 []).map
        (fun p => (p.2.outcome, p.1.store.jobs.map (fun j => (j.status, j.poll_count)))) =
      some ("booked", [("completed", 1)]) := by
  decide

/-! ## C10 — dueness is lexicographic string comparison -/

/-- C10: both `get_pending_sniper_jobs` and the selection phase of
`claim_next_sniper_job` decide dueness by comparing the stored
`scheduled_at` TEXT against the `_now_est()` string with SQLite BINARY
collation, i.e. plain lexicographic string order (`≤` on `String`), not by
comparing instants.  Concretely: a `scheduled_at` of
`2026-10-01T12:00:00+09:00` — an instant that is 23:00 on 2026-09-30 in
America/New_York, hence already past — is not considered due at the naive
EST string `2026-10-01T08:00:00`, because the zoned text compares
string-greater; a naive `2026-10-01T07:59:00` is due. -/
theorem dueness_is_lexicographic :
    (∀ st now j, j ∈ get_pending_sniper_jobs st now ↔
      (j ∈ st.jobs ∧ j.status = "pending" ∧ j.scheduled_at ≤ now)) ∧
    (∀ st now jid, claim_select st now = some jid →
      ∃ j, j ∈ st.jobs ∧ j.id = jid ∧ j.status = "pending" ∧
        j.scheduled_at ≤ now) ∧
    (∀ j : SniperJob, j.scheduled_at = "2026-10-01T12:00:00+09:00" →
      jobIsDue j "2026-10-01T08:00:00" = false) ∧
    jobIsDue ⟨1, "v", "2026-10-02", ["7:00 PM"], 2, 60, "pending", 0, 60,
      "2026-10-01T07:59:00", true, none⟩ "2026-10-01T08:00:00" = true := by
  refine ⟨?_, ?_, ?_, ?_⟩
  case refine_4 =>
    simp only [jobIsDue, Bool.and_eq_true, beq_iff_eq, decide_eq_true_eq]
    refine ⟨trivial, ?_⟩
    rw [String.le_iff_toList_le]
    decide
  · intro st now j
    simp [get_pending_sniper_jobs, List.mem_insertionSort, List.mem_filter,
      jobIsDue, and_assoc]
  · intro st now jid h
    simp only [claim_select] at h
    rcases hh : ((st.jobs.filter (fun j => jobIsDue j now)).insertionSort
        (fun a b => a.scheduled_at ≤ b.scheduled_at)).head? with _ | j0
    · rw [hh] at h
      exact absurd h (by simp)
    · rw [hh] at h
      have hmem : j0 ∈ (st.jobs.filter (fun j => jobIsDue j now)).insertionSort
          (fun a b => a.scheduled_at ≤ b.scheduled_at) := List.mem_of_mem_head? hh
      rw [List.mem_insertionSort, List.mem_filter] at hmem
      have hdue := hmem.2
      simp only [jobIsDue, Bool.and_eq_true, beq_iff_eq, decide_eq_true_eq] at hdue
      exact ⟨j0, hmem.1, by simpa using h, hdue.1, hdue.2⟩
  · intro j hj
    simp only [jobIsDue, hj, Bool.and_eq_false_iff]
    right
    rw [decide_eq_false_iff_not, String.le_iff_toList_le]
    decide

/-! ## C3 — the atomic claim protocol -/

/-- After any conditional-claim update on `job_id`, no row with that id is
still `pending` (a successful update flipped every such row to `active`;
an unsuccessful one means none existed). -/
theorem claim_finish_no_pending_left (st : StoreState) (job_id : Nat) :
    ((claim_finish st job_id).1.jobs.filter
      (fun j => j.id == job_id && j.status == "pending")).length = 0 := by
  have key : ∀ j : SniperJob,
      ((if j.id == job_id && j.status == "pending" then
          apply_job_patch ⟨some "active", none⟩ j
        else j).id == job_id &&
       (if j.id == job_id && j.status == "pending" then
          apply_job_patch ⟨some "active", none⟩ j
        else j).status == "pending") = false := by
    intro j
    by_cases hp : (j.id == job_id && j.status == "pending") = true
    · rw [if_pos hp]
      have hs : (apply_job_patch ⟨some "active", none⟩ j).status = "active" :=
        apply_job_patch_status_some _ _ _
      simp [hs]
    · rw [if_neg hp]
      exact Bool.eq_false_iff.mpr hp
  unfold claim_finish
  simp only []
  split <;>
  · rw [List.length_eq_zero, List.filter_eq_nil_iff]
    intro x hx
    rcases List.mem_map.mp hx with ⟨j, _, rfl⟩
    simp only [key j, Bool.false_eq_true, not_false_eq_true]

/-- When no row with the id is `pending`, the conditional update is a no-op
returning `none`. -/
theorem claim_finish_of_no_pending (st : StoreState) (job_id : Nat)
    (h : (st.jobs.filter (fun j => j.id == job_id && j.status == "pending")).length = 0) :
    claim_finish st job_id = (st, none) := by
  have hnone : ∀ j ∈ st.jobs, ¬(j.id == job_id && j.status == "pending") = true := by
    rw [List.length_eq_zero, List.filter_eq_nil_iff] at h
    exact h
  have hmap : st.jobs.map (fun j =>
      if j.id == job_id && j.status == "pending" then
        apply_job_patch ⟨some "active", none⟩ j
      else j) = st.jobs := by
    rw [List.map_congr_left (g := fun j : SniperJob => j), List.map_id']
    intro j hj
    rw [if_neg (hnone j hj)]
  unfold claim_finish
  simp only []
  rw [h, if_pos rfl, hmap]

theorem filter_isSome_replicate_none (n : Nat) :
    (List.replicate n (none : Option SniperJob)).filter (fun r => r.isSome) = [] := by
  induction n with
  | zero => rfl
  | succ n ih => simp [List.replicate_succ, ih]

/-- Once no pending row with the id remains, every further claim attempt in
the race returns `none` and leaves the store untouched. -/
theorem claim_race_of_no_pending (job_id : Nat) :
    ∀ (n : Nat) (st : StoreState),
      (st.jobs.filter (fun j => j.id == job_id && j.status == "pending")).length = 0 →
      claim_race st job_id n = (st, List.replicate n none) := by
  intro n
  induction n with
  | zero => intro st _; rfl
  | succ n ih =>
    intro st h
    have hcf := claim_finish_of_no_pending st job_id h
    simp only [claim_race, hcf, ih st h]
    rfl

/-- C3: concurrent callers racing `claim_next_sniper_job` on the same due
pending job are serialized at the store into some order of their atomic
conditional updates (the SELECT phase reads without writing, so it cannot
affect any other caller); in every such serialization at most one caller
receives the job, a caller whose conditional update matched zero rows
receives `none`, and `claim_next_sniper_job` is exactly the SELECT phase
followed by the conditional-update phase. -/
theorem claim_next_at_most_one_winner :
    (∀ st job_id n,
      ((claim_race st job_id n).2.filter (fun r => r.isSome)).length ≤ 1) ∧
    (∀ st job_id,
      (claim_finish (claim_finish st job_id).1 job_id).2 = none) ∧
    (∀ st now,
      (claim_next_sniper_job st now = (st, none) ∧ claim_select st now = none) ∨
      ∃ jid, claim_select st now = some jid ∧
        claim_next_sniper_job st now = claim_finish st jid) := by
  refine ⟨?_, ?_, ?_⟩
  · intro st job_id n
    cases n with
    | zero => simp [claim_race]
    | succ n =>
      have hrest := claim_race_of_no_pending job_id n (claim_finish st job_id).1
        (claim_finish_no_pending_left st job_id)
      simp only [claim_race, hrest]
      cases h : (claim_finish st job_id).2 with
      | none => simp [filter_isSome_replicate_none]
      | some j => simp [filter_isSome_replicate_none]
  · intro st job_id
    rw [claim_finish_of_no_pending _ _ (claim_finish_no_pending_left st job_id)]
  · intro st now
    cases h : claim_select st now with
    | none =>
      left
      constructor
      · simp only [claim_next_sniper_job, h]
      · rfl
    | some jid =>
      right
      exact ⟨jid, rfl, by simp only [claim_next_sniper_job, h]⟩

/-! ## C7 — provider and notifier failures never escape -/

/-- C7: every provider exception is caught at its call site and converted
into a non-fatal poll result: an availability exception becomes the
`Availability check failed` poll error, a booking exception the
`Booking failed` poll error, a conflict-resolution exception the
`Conflict resolution failed` poll error; inside `run_job` such an
iteration merely increments the poll count, records the error for the
aggregate report, and continues the loop — it never escapes `run_job` (nor
`run_scheduled_jobs`, which only composes `claim_next_sniper_job` with
`run_job`).  The notifier (whose transport, `EmailSender`, is missing from
the sources and spec-modelled as best-effort) returns `false` rather than
raising when unconfigured. -/
theorem provider_errors_never_escape :
    (∀ env job e, env.availability = Except.error e →
      poll_once env job =
        ⟨false, none, none, some ("Availability check failed: " ++ e), false⟩) ∧
    (∀ env job e slots best, env.availability = Except.ok slots → slots ≠ [] →
      pick_best_slot slots job.preferred_times job.time_window_minutes = some best →
      env.booking = Except.error e →
      poll_once env job =
        ⟨false, none, none, some ("Booking failed: " ++ e), false⟩) ∧
    (∀ env job config_id slot e, env.conflict_resolution = Except.error e →
      resolve_conflict env job config_id slot =
        ⟨false, none, none, some ("Conflict resolution failed: " ++ e), false⟩) ∧
    (∀ step rest es job_id job event_only_count error_counts e,
      step.shutdown = false →
      get_sniper_job es.store job_id = some job →
      job.poll_count < job.max_attempts →
      step.poll.availability = Except.error e →
      run_job_loop job_id (step :: rest) es job event_only_count error_counts =
        run_job_loop job_id rest
          ⟨(increment_poll_count es.store job_id).1, es.notifications⟩ job
          event_only_count
          (bumpCount error_counts ("Availability check failed: " ++ e))) ∧
    (∀ c send_outcome, notifier_is_configured c = false →
      notifier_deliver c send_outcome = false) := by
  refine ⟨?_, ?_, ?_, ?_, ?_⟩
  · intro env job e h
    simp only [poll_once, h]
  · intro env job e slots best havail hne hpick hbook
    simp only [poll_once, havail, if_neg hne, hpick, hbook]
  · intro env job config_id slot e h
    simp only [resolve_conflict, h]
  · intro step rest es job_id job event_only_count error_counts e hshut hget hlt he
    have hres : poll_once step.poll job =
        ⟨false, none, none, some ("Availability check failed: " ++ e), false⟩ := by
      simp only [poll_once, he]
    simp only [run_job_loop, hshut, Bool.false_eq_true, if_false, hget,
      if_neg (Nat.not_le.mpr hlt), hres]
  · intro c send_outcome h
    simp only [notifier_deliver, h, Bool.false_eq_true, if_false]

/-- Witness for C7: the conversion of each kind of provider exception, the
loop continuing across an all-exceptions poll, and the unconfigured
notifier, at concrete inputs. -/
theorem provider_errors_never_escape_witness :
    poll_once exRaisingEnv exJob =
      ⟨false, none, none, some "Availability check failed: Connection timeout",
        false⟩ ∧
    poll_once ⟨Except.ok [⟨1, some "7:00 PM", none, none⟩],
        Except.error "Network error", Except.ok ⟨false, none, none, none⟩⟩ exJob =
      ⟨false, none, none, some "Booking failed: Network error", false⟩ ∧
    resolve_conflict exRaisingEnv exJob "bad-config-id" ⟨1, some "7:00 PM", none, none⟩ =
      ⟨false, none, none, some "Conflict resolution failed: Browser crashed", false⟩ ∧
    run_job_loop 1 [⟨false, exRaisingEnv⟩] ⟨⟨[exJob], [], 1⟩, []⟩ exJob 0 [] =
      run_job_loop 1 []
        ⟨(increment_poll_count (⟨[exJob], [], 1⟩ : StoreState) 1).1, []⟩ exJob 0
        (bumpCount [] "Availability check failed: Connection timeout") ∧
    notifier_deliver ⟨false, none⟩ true = false :=
  ⟨provider_errors_never_escape.1 exRaisingEnv exJob "Connection timeout" rfl,
   provider_errors_never_escape.2.1 _ exJob "Network error"
     [⟨1, some "7:00 PM", none, none⟩] ⟨1, some "7:00 PM", none, none⟩ rfl
     (by decide) (by decide) rfl,
   provider_errors_never_escape.2.2.1 exRaisingEnv exJob "bad-config-id"
     ⟨1, some "7:00 PM", none, none⟩ "Browser crashed" rfl,
   provider_errors_never_escape.2.2.2.1 ⟨false, exRaisingEnv⟩ [] ⟨⟨[exJob], [], 1⟩, []⟩
     1 exJob 0 [] "Connection timeout" rfl (by decide) (by decide) rfl,
   provider_errors_never_escape.2.2.2.2 ⟨false, none⟩ true rfl⟩

/-! ## C5 — booking-handle round trip -/

/-- Scanning past a character that cannot start a separator. -/
theorem pySplit_cons_of_ne (c : Char) (cs : List Char) (hc : c ≠ '|') :
    pySplit (c :: cs) =
      match pySplit cs with
      | [] => [[c]]
      | h :: t => (c :: h) :: t := by
  match cs with
  | [] => rfl
  | [c2] => rfl
  | c2 :: c3 :: rest => simp [pySplit, hc]

/-- Cutting at a separator occurrence. -/
theorem pySplit_cons_pipes (r : List Char) :
    pySplit ('|' :: '|' :: '|' :: r) = [] :: pySplit r := by
  simp [pySplit]

/-- A pipe-free chunk is never split. -/
theorem pySplit_no_pipe (a : List Char) (h : '|' ∉ a) : pySplit a = [a] := by
  induction a with
  | nil => rfl
  | cons c cs ih =>
    have hc : c ≠ '|' := fun hch => h (hch ▸ List.mem_cons_self c cs)
    have hcs : '|' ∉ cs := fun hcs => h (List.mem_cons_of_mem c hcs)
    rw [pySplit_cons_of_ne c cs hc, ih hcs]

/-- Splitting strips one pipe-free chunk and its following separator. -/
theorem pySplit_append (a : List Char) (r : List Char) (h : '|' ∉ a) :
    pySplit (a ++ ['|', '|', '|'] ++ r) = a :: pySplit r := by
  induction a with
  | nil =>
    simpa using pySplit_cons_pipes r
  | cons c cs ih =>
    have hc : c ≠ '|' := fun hch => h (hch ▸ List.mem_cons_self c cs)
    have hcs : '|' ∉ cs := fun hcs => h (List.mem_cons_of_mem c hcs)
    have hsplit : (c :: cs) ++ ['|', '|', '|'] ++ r =
        c :: (cs ++ ['|', '|', '|'] ++ r) := by simp
    rw [hsplit, pySplit_cons_of_ne c _ hc, ih hcs]

/-- C5 (counterexample): the claim fails as stated.  The components
`("|", "", "")` contain no occurrence of the three-character separator
`"|||"`, yet composing them gives a string of seven pipes, which parsing
splits into `("", "", "|")` — the separator boundaries merge with the pipe
characters of the components. -/
theorem config_id_roundtrip_counterexample :
    (¬ pipes <:+: "|".toList) ∧ (¬ pipes <:+: "".toList) ∧
    parse_config_id (make_config_id "|" "" "") = Except.ok ⟨"", "", "|"⟩ ∧
    parse_config_id (make_config_id "|" "" "") ≠ Except.ok ⟨"|", "", ""⟩ := by
  decide

/-- C5 (amended): for components free of the separator character `|` the
compose/parse pair is a lossless round trip, and `parse_config_id` raises
the validation error exactly for the strings that do not split into three
parts. -/
theorem config_id_roundtrip_amended (v d t : String)
    (hv : '|' ∉ v.toList) (hd : '|' ∉ d.toList) (ht : '|' ∉ t.toList) :
    parse_config_id (make_config_id v d t) = Except.ok ⟨v, d, t⟩ ∧
    (∀ s : String, (∃ msg, parse_config_id s = Except.error msg) ↔
      (pySplit s.toList).length ≠ 3) := by
  constructor
  · have hdata : (make_config_id v d t).toList =
        v.toList ++ ['|', '|', '|'] ++ (d.toList ++ ['|', '|', '|'] ++ t.toList) := by
      simp [make_config_id, String.toList, String.data_append]
    unfold parse_config_id
    rw [hdata, pySplit_append _ _ hv, pySplit_append _ _ hd, pySplit_no_pipe _ ht]
    rfl
  · intro s
    show (∃ msg, _ = Except.error msg) ↔ (pySplit s.data).length ≠ 3
    unfold parse_config_id
    rcases hsp : pySplit s.data with _ | ⟨a, _ | ⟨b, _ | ⟨c, _ | ⟨x, l⟩⟩⟩⟩ <;>
      simp [hsp]

/-- Witness for the amended C5 at concrete pipe-free components. -/
theorem config_id_roundtrip_amended_witness :
    ('|' ∉ "lartusi".toList ∧ '|' ∉ "2026-03-01".toList ∧
      '|' ∉ "8:30 PM".toList) ∧
    (parse_config_id (make_config_id "lartusi" "2026-03-01" "8:30 PM") =
      Except.ok ⟨"lartusi", "2026-03-01", "8:30 PM"⟩ ∧
    (∀ s : String, (∃ msg, parse_config_id s = Except.error msg) ↔
      (pySplit s.toList).length ≠ 3)) :=
  ⟨⟨by decide, by decide, by decide⟩,
   config_id_roundtrip_amended "lartusi" "2026-03-01" "8:30 PM"
     (by decide) (by decide) (by decide)⟩

/-! ## C6 — the window filter -/

theorem scoreSlot_eq (prefs : List TimeOfDay) (w : Nat) (s : Slot) :
    scoreSlot prefs w s =
      (match slotDist? prefs s with
        | some d => if d ≤ w then some (d, s) else none
        | none => none) := by
  unfold scoreSlot slotDist?
  cases parse_time (slotTime s) <;> simp

/-- Every scored pair carries its slot's distance, within the window. -/
theorem mem_scored (prefs : List TimeOfDay) (w : Nat) (slots : List Slot)
    (x : Nat × Slot) (hx : x ∈ slots.filterMap (scoreSlot prefs w)) :
    slotDist? prefs x.2 = some x.1 ∧ x.1 ≤ w ∧ x.2 ∈ slots := by
  rcases List.mem_filterMap.mp hx with ⟨s, hs, hsc⟩
  rw [scoreSlot_eq] at hsc
  rcases hd : slotDist? prefs s with _ | d
  · rw [hd] at hsc
    exact absurd hsc (by simp)
  · rw [hd] at hsc
    change (if d ≤ w then some (d, s) else none) = some x at hsc
    by_cases hw : d ≤ w
    · rw [if_pos hw] at hsc
      cases hsc
      exact ⟨hd, hw, hs⟩
    · rw [if_neg hw] at hsc
      exact absurd hsc (by simp)

/-- The scored pairs project, in order, onto exactly the eligible slots. -/
theorem scored_map_snd (prefs : List TimeOfDay) (w : Nat) (slots : List Slot) :
    (slots.filterMap (scoreSlot prefs w)).map Prod.snd =
      slots.filter (slotEligible prefs w) := by
  induction slots with
  | nil => rfl
  | cons s l ih =>
    rw [List.filterMap_cons, List.filter_cons, scoreSlot_eq]
    rcases hd : slotDist? prefs s with _ | d
    · have he : slotEligible prefs w s = false := by simp [slotEligible, hd]
      simp [he, ih]
    · by_cases hw : d ≤ w
      · have he : slotEligible prefs w s = true := by simp [slotEligible, hd, hw]
        simp [hw, he, ih]
      · have he : slotEligible prefs w s = false := by simp [slotEligible, hd, hw]
        simp [hw, he, ih]

theorem pairwise_key_const (d : Nat) (l : List (Nat × Slot))
    (h : ∀ x ∈ l, x.1 = d) : l.Pairwise (fun a b => a.1 ≤ b.1) := by
  induction l with
  | nil => exact List.Pairwise.nil
  | cons x l ih =>
    refine List.Pairwise.cons (fun y hy => ?_) (ih (fun y hy => h y (List.mem_cons_of_mem x hy)))
    rw [h x (List.mem_cons_self x l), h y (List.mem_cons_of_mem x hy)]

/-- C6: with at least one parseable preferred time, `filter_slots_by_time`
returns exactly the slots whose time parses and whose minimum
minute-distance to a parsed preferred time is within the window (as a
permutation of the input's eligible sublist), sorted non-decreasingly by
that distance, with ties keeping input order (for every distance value the
returned slots at that distance are precisely the eligible input slots at
that distance, in input order). -/
theorem filter_slots_by_time_spec (slots : List Slot)
    (preferred_times : List String) (w : Nat) (prefs : List TimeOfDay)
    (hp : prefs = preferred_times.filterMap parse_time) (hne : prefs ≠ []) :
    (filter_slots_by_time slots preferred_times w).Perm
      (slots.filter (slotEligible prefs w)) ∧
    (filter_slots_by_time slots preferred_times w).Pairwise
      (fun a b => (slotDist? prefs a).getD 0 ≤ (slotDist? prefs b).getD 0) ∧
    (∀ d : Nat, (filter_slots_by_time slots preferred_times w).filter
        (fun s => slotDist? prefs s == some d) =
      (slots.filter (slotEligible prefs w)).filter
        (fun s => slotDist? prefs s == some d)) := by
  have hpt : preferred_times ≠ [] := by
    intro h
    rw [h] at hp
    exact hne hp
  by_cases hs : slots = []
  · subst hs
    simp [filter_slots_by_time]
  · have hfs : filter_slots_by_time slots preferred_times w =
        ((slots.filterMap (scoreSlot prefs w)).insertionSort
          (fun a b => a.1 ≤ b.1)).map Prod.snd := by
      unfold filter_slots_by_time
      rw [if_neg hs, if_neg hpt, ← hp, if_neg hne]
    set scored := slots.filterMap (scoreSlot prefs w) with hscored
    set sorted := scored.insertionSort (fun a b => a.1 ≤ b.1) with hsorted
    have hperm : sorted.Perm scored := List.perm_insertionSort _ _
    have hmem_sorted : ∀ x ∈ sorted,
        slotDist? prefs x.2 = some x.1 ∧ x.1 ≤ w ∧ x.2 ∈ slots :=
      fun x hx => mem_scored prefs w slots x (hperm.mem_iff.mp hx)
    refine ⟨?_, ?_, ?_⟩
    · rw [hfs, ← scored_map_snd prefs w slots]
      exact hperm.map Prod.snd
    · rw [hfs, List.pairwise_map]
      have hsor : sorted.Pairwise (fun a b => a.1 ≤ b.1) :=
        List.sorted_insertionSort _ _
      refine hsor.imp_of_mem ?_
      intro a b ha hb hab
      rw [(hmem_sorted a ha).1, (hmem_sorted b hb).1] at *
      simpa using hab
    · intro d
      have hq : ∀ x ∈ sorted,
          ((fun s => slotDist? prefs s == some d) ∘ Prod.snd) x = (x.1 == d) := by
        intro x hx
        have := (hmem_sorted x hx).1
        simp [Function.comp, this]
      have hq' : ∀ x ∈ scored,
          ((fun s => slotDist? prefs s == some d) ∘ Prod.snd) x = (x.1 == d) := by
        intro x hx
        have := (mem_scored prefs w slots x hx).1
        simp [Function.comp, this]
      have hsub : List.Sublist (scored.filter (fun x => x.1 == d)) sorted := by
        refine List.sublist_insertionSort ?_ (List.filter_sublist scored)
        refine pairwise_key_const d _ ?_
        intro x hx
        simpa using List.of_mem_filter hx
      have hself : (scored.filter (fun x => x.1 == d)).filter
          (fun x => x.1 == d) = scored.filter (fun x => x.1 == d) :=
        List.filter_eq_self.mpr (fun a ha => (List.mem_filter.mp ha).2)
      have hsub2 : List.Sublist (scored.filter (fun x => x.1 == d))
          (sorted.filter (fun x => x.1 == d)) := by
        have h2 := hsub.filter (fun x : Nat × Slot => x.1 == d)
        rwa [hself] at h2
      have hpermf : (sorted.filter (fun x => x.1 == d)).Perm
          (scored.filter (fun x => x.1 == d)) := hperm.filter _
      have heq : scored.filter (fun x => x.1 == d) =
          sorted.filter (fun x => x.1 == d) :=
        hsub2.eq_of_length hpermf.length_eq.symm
      rw [hfs, List.filter_map, List.filter_congr hq, ← heq,
        ← scored_map_snd prefs w slots, List.filter_map, List.filter_congr hq']

/-- Witness for C6 at the spec's sample scenario (preferred 7:00 PM, window
60, slots at 6:00 / 7:30 / 9:00 PM). -/
theorem filter_slots_by_time_spec_witness :
    ([⟨19, 0⟩] : List TimeOfDay) = ["7:00 PM"].filterMap parse_time ∧
    ([⟨19, 0⟩] : List TimeOfDay) ≠ [] ∧
    ((filter_slots_by_time
        [⟨1, some "6:00 PM", none, none⟩, ⟨2, some "7:30 PM", none, none⟩,
          ⟨3, some "9:00 PM", none, none⟩] ["7:00 PM"] 60).Perm
      ([⟨1, some "6:00 PM", none, none⟩, ⟨2, some "7:30 PM", none, none⟩,
          ⟨3, some "9:00 PM", none, none⟩].filter (slotEligible [⟨19, 0⟩] 60)) ∧
    (filter_slots_by_time
        [⟨1, some "6:00 PM", none, none⟩, ⟨2, some "7:30 PM", none, none⟩,
          ⟨3, some "9:00 PM", none, none⟩] ["7:00 PM"] 60).Pairwise
      (fun a b => (slotDist? [⟨19, 0⟩] a).getD 0 ≤ (slotDist? [⟨19, 0⟩] b).getD 0) ∧
    (∀ d : Nat, (filter_slots_by_time
        [⟨1, some "6:00 PM", none, none⟩, ⟨2, some "7:30 PM", none, none⟩,
          ⟨3, some "9:00 PM", none, none⟩] ["7:00 PM"] 60).filter
        (fun s => slotDist? [⟨19, 0⟩] s == some d) =
      ([⟨1, some "6:00 PM", none, none⟩, ⟨2, some "7:30 PM", none, none⟩,
          ⟨3, some "9:00 PM", none, none⟩].filter
          (slotEligible [⟨19, 0⟩] 60)).filter
        (fun s => slotDist? [⟨19, 0⟩] s == some d))) :=
  ⟨by decide, by decide,
   filter_slots_by_time_spec
     [⟨1, some "6:00 PM", none, none⟩, ⟨2, some "7:30 PM", none, none⟩,
       ⟨3, some "9:00 PM", none, none⟩] ["7:00 PM"] 60 [⟨19, 0⟩]
     (by decide) (by decide)⟩

/-! ## C1 — pick_best_slot -/

/-- Invariant of the fallback scan: it yields `none` exactly when it never
saw a parseable slot (and started empty), and any winner is either the
initial accumulator or a parseable scanned slot whose distance undercuts
every scanned slot and the initial accumulator. -/
theorem fallbackBest_go (prefs : List TimeOfDay) :
    ∀ (slots : List Slot) (acc : Option (Slot × Nat)),
      (slots.foldl (fallbackStep prefs) acc = none ↔
        (acc = none ∧ ∀ s ∈ slots, parse_time (slotTime s) = none)) ∧
      (∀ b bd, slots.foldl (fallbackStep prefs) acc = some (b, bd) →
        ((acc = some (b, bd) ∨ (b ∈ slots ∧ slotDist? prefs b = some bd)) ∧
         (∀ s ∈ slots, ∀ d, slotDist? prefs s = some d → bd ≤ d) ∧
         (∀ a ad, acc = some (a, ad) → bd ≤ ad))) := by
  intro slots
  induction slots with
  | nil =>
    intro acc
    refine ⟨by simp, ?_⟩
    intro b bd hr
    simp only [List.foldl_nil] at hr
    exact ⟨Or.inl hr, by simp, fun a ad ha => by
      rw [hr] at ha
      cases ha
      exact le_refl _⟩
  | cons s l ih =>
    intro acc
    rw [List.foldl_cons]
    rcases hpt : parse_time (slotTime s) with _ | t
    · have hstep : fallbackStep prefs acc s = acc := by
        unfold fallbackStep
        rw [hpt]
      rw [hstep]
      have hds : slotDist? prefs s = none := by
        unfold slotDist?
        rw [hpt]
        rfl
      refine ⟨?_, ?_⟩
      · rw [(ih acc).1]
        constructor
        · rintro ⟨ha, hl⟩
          exact ⟨ha, fun s' hs' => by
            rcases List.mem_cons.mp hs' with h | h
            · rw [h]; exact hpt
            · exact hl s' h⟩
        · rintro ⟨ha, hl⟩
          exact ⟨ha, fun s' hs' => hl s' (List.mem_cons_of_mem s hs')⟩
      · intro b bd hr
        obtain ⟨h1, h2, h3⟩ := (ih acc).2 b bd hr
        refine ⟨?_, ?_, h3⟩
        · rcases h1 with h | ⟨hb, hd⟩
          · exact Or.inl h
          · exact Or.inr ⟨List.mem_cons_of_mem s hb, hd⟩
        · intro s' hs' d hd
          rcases List.mem_cons.mp hs' with h | h
          · rw [h, hds] at hd
            exact absurd hd (by simp)
          · exact h2 s' h d hd
    · have hds : slotDist? prefs s = some (minDistToPrefs prefs t) := by
        unfold slotDist?
        rw [hpt]
        rfl
      rcases hacc : acc with _ | ⟨a, ad⟩
      · have hstep : fallbackStep prefs none s = some (s, minDistToPrefs prefs t) := by
          unfold fallbackStep
          rw [hpt]
        rw [hstep]
        refine ⟨?_, ?_⟩
        · rw [(ih _).1]
          constructor
          · rintro ⟨h, _⟩
            exact absurd h (by simp)
          · rintro ⟨_, hl⟩
            exact absurd (hl s (List.mem_cons_self s l)) (by rw [hpt]; simp)
        · intro b bd hr
          obtain ⟨h1, h2, h3⟩ := (ih _).2 b bd hr
          have hbd0 : bd ≤ minDistToPrefs prefs t := h3 s _ rfl
          refine ⟨?_, ?_, ?_⟩
          · rcases h1 with h | ⟨hb, hd⟩
            · cases h
              exact Or.inr ⟨List.mem_cons_self s l, hds⟩
            · exact Or.inr ⟨List.mem_cons_of_mem s hb, hd⟩
          · intro s' hs' d hd
            rcases List.mem_cons.mp hs' with h | h
            · rw [h, hds] at hd
              cases hd
              exact hbd0
            · exact h2 s' h d hd
          · intro a ad ha
            exact absurd ha (by simp)
      · have hle : ∀ b bd,
            (if minDistToPrefs prefs t < ad then some (s, minDistToPrefs prefs t)
              else some (a, ad)) = some (b, bd) → bd ≤ ad := by
          intro b bd h
          by_cases hlt : minDistToPrefs prefs t < ad
          · rw [if_pos hlt] at h
            cases h
            exact le_of_lt hlt
          · rw [if_neg hlt] at h
            cases h
            exact le_refl _
        have hstep : fallbackStep prefs (some (a, ad)) s =
            (if minDistToPrefs prefs t < ad then some (s, minDistToPrefs prefs t)
              else some (a, ad)) := by
          unfold fallbackStep
          rw [hpt]
        rw [hstep]
        refine ⟨?_, ?_⟩
        · rw [(ih _).1]
          constructor
          · rintro ⟨h, _⟩
            by_cases hlt : minDistToPrefs prefs t < ad <;>
              simp [hlt] at h
          · rintro ⟨h, _⟩
            exact absurd h (by simp)
        · intro b bd hr
          obtain ⟨h1, h2, h3⟩ := (ih _).2 b bd hr
          have hbdad : bd ≤ ad := by
            by_cases hlt : minDistToPrefs prefs t < ad
            · have := h3 s (minDistToPrefs prefs t) (by rw [if_pos hlt])
              exact le_trans this (le_of_lt hlt)
            · exact h3 a ad (by rw [if_neg hlt])
          have hbd0 : bd ≤ minDistToPrefs prefs t := by
            by_cases hlt : minDistToPrefs prefs t < ad
            · exact h3 s (minDistToPrefs prefs t) (by rw [if_pos hlt])
            · exact le_trans hbdad (Nat.le_of_not_lt hlt)
          refine ⟨?_, ?_, ?_⟩
          · rcases h1 with h | ⟨hb, hd⟩
            · by_cases hlt : minDistToPrefs prefs t < ad
              · rw [if_pos hlt] at h
                cases h
                exact Or.inr ⟨List.mem_cons_self s l, hds⟩
              · rw [if_neg hlt] at h
                exact Or.inl h
            · exact Or.inr ⟨List.mem_cons_of_mem s hb, hd⟩
          · intro s' hs' d hd
            rcases List.mem_cons.mp hs' with h | h
            · rw [h, hds] at hd
              cases hd
              exact hbd0
            · exact h2 s' h d hd
          · intro a' ad' ha'
            cases ha'
            exact hbdad

/-- The fallback scan returns `none` exactly when no slot time parses, and
otherwise returns a parseable slot at the global minimum distance. -/
theorem fallbackBest_spec (prefs : List TimeOfDay) (slots : List Slot) :
    (fallbackBest prefs slots = none ↔
      ∀ s ∈ slots, parse_time (slotTime s) = none) ∧
    (∀ b bd, fallbackBest prefs slots = some (b, bd) →
      b ∈ slots ∧ slotDist? prefs b = some bd ∧
      ∀ s ∈ slots, ∀ d, slotDist? prefs s = some d → bd ≤ d) := by
  obtain ⟨h1, h2⟩ := fallbackBest_go prefs slots none
  refine ⟨by simpa using h1, ?_⟩
  intro b bd hr
  obtain ⟨ha, hb, _⟩ := h2 b bd hr
  rcases ha with h | ⟨hm, hd⟩
  · exact absurd h (by simp)
  · exact ⟨hm, hd, hb⟩

/-- C1: with a non-empty slot list and at least one parseable preferred
time, `pick_best_slot` returns `None` only when every candidate's time
fails to parse — in fact it never returns `None` at all (the final
`best or slots[0]` falls back to the first slot even when nothing parses) —
and whenever the window filter comes back empty and some slot time parses,
it returns a parseable slot whose minimum minute-distance to the parsed
preferred times is globally smallest, ignoring the window. -/
theorem pick_best_slot_spec (slots : List Slot) (preferred_times : List String)
    (w : Nat) (prefs : List TimeOfDay)
    (hp : prefs = preferred_times.filterMap parse_time)
    (hslots : slots ≠ []) (hne : prefs ≠ []) :
    (pick_best_slot slots preferred_times w = none →
      ∀ s ∈ slots, parse_time (slotTime s) = none) ∧
    pick_best_slot slots preferred_times w ≠ none ∧
    (filter_slots_by_time slots preferred_times w = [] →
      (∃ s0 ∈ slots, parse_time (slotTime s0) ≠ none) →
      ∃ b, pick_best_slot slots preferred_times w = some b ∧ b ∈ slots ∧
        ∃ bd, slotDist? prefs b = some bd ∧
          ∀ s ∈ slots, ∀ d, slotDist? prefs s = some d → bd ≤ d) := by
  have hpt : preferred_times ≠ [] := by
    intro h
    rw [h] at hp
    exact hne hp
  have hpb0 : pick_best_slot slots preferred_times w =
      (match filter_slots_by_time slots preferred_times w with
        | s :: _ => some s
        | [] =>
          if (preferred_times.filterMap parse_time) = [] then slots.head?
          else
            match fallbackBest (preferred_times.filterMap parse_time) slots with
            | some (b, _) => some b
            | none => slots.head?) := by
    unfold pick_best_slot
    rw [if_neg hslots, if_neg hpt]
  obtain ⟨hd, tl, hcons⟩ : ∃ hd tl, slots = hd :: tl := by
    cases slots with
    | nil => exact absurd rfl hslots
    | cons a l => exact ⟨a, l, rfl⟩
  rcases hfl : filter_slots_by_time slots preferred_times w with _ | ⟨s, t⟩
  · rw [hfl, ← hp, if_neg hne] at hpb0
    rcases hfb : fallbackBest prefs slots with _ | ⟨b, bd⟩
    · rw [hfb] at hpb0
      have hall : ∀ s ∈ slots, parse_time (slotTime s) = none :=
        (fallbackBest_spec prefs slots).1.mp hfb
      have hsome : pick_best_slot slots preferred_times w = some hd := by
        rw [hpb0, hcons]
        rfl
      refine ⟨fun _ => hall, by rw [hsome]; simp, ?_⟩
      rintro _ ⟨s0, hs0, hps0⟩
      exact absurd (hall s0 hs0) hps0
    · rw [hfb] at hpb0
      obtain ⟨hm, hdist, hmin⟩ := (fallbackBest_spec prefs slots).2 b bd hfb
      refine ⟨fun h => absurd (hpb0 ▸ h) (by simp), by rw [hpb0]; simp, ?_⟩
      intro _ _
      exact ⟨b, hpb0, hm, bd, hdist, hmin⟩
  · rw [hfl] at hpb0
    refine ⟨fun h => absurd (hpb0 ▸ h) (by simp), by rw [hpb0]; simp, ?_⟩
    intro hemp
    exact absurd hemp (by simp)

/-- Witness for C1: a slot list whose every candidate is outside the
60-minute window (so the filter is empty), where the fallback picks the
globally closest parseable slot. -/
theorem pick_best_slot_spec_witness :
    ([⟨19, 0⟩] : List TimeOfDay) = ["7:00 PM"].filterMap parse_time ∧
    ([⟨1, some "9:00 AM", none, none⟩, ⟨2, some "4:00 PM", none, none⟩] :
      List Slot) ≠ [] ∧
    ([⟨19, 0⟩] : List TimeOfDay) ≠ [] ∧
    ((pick_best_slot [⟨1, some "9:00 AM", none, none⟩,
        ⟨2, some "4:00 PM", none, none⟩] ["7:00 PM"] 60 = none →
      ∀ s ∈ ([⟨1, some "9:00 AM", none, none⟩,
        ⟨2, some "4:00 PM", none, none⟩] : List Slot),
        parse_time (slotTime s) = none) ∧
    pick_best_slot [⟨1, some "9:00 AM", none, none⟩,
        ⟨2, some "4:00 PM", none, none⟩] ["7:00 PM"] 60 ≠ none ∧
    (filter_slots_by_time [⟨1, some "9:00 AM", none, none⟩,
        ⟨2, some "4:00 PM", none, none⟩] ["7:00 PM"] 60 = [] →
      (∃ s0 ∈ ([⟨1, some "9:00 AM", none, none⟩,
          ⟨2, some "4:00 PM", none, none⟩] : List Slot),
        parse_time (slotTime s0) ≠ none) →
      ∃ b, pick_best_slot [⟨1, some "9:00 AM", none, none⟩,
          ⟨2, some "4:00 PM", none, none⟩] ["7:00 PM"] 60 = some b ∧
        b ∈ ([⟨1, some "9:00 AM", none, none⟩,
          ⟨2, some "4:00 PM", none, none⟩] : List Slot) ∧
        ∃ bd, slotDist? [⟨19, 0⟩] b = some bd ∧
          ∀ s ∈ ([⟨1, some "9:00 AM", none, none⟩,
            ⟨2, some "4:00 PM", none, none⟩] : List Slot),
            ∀ d, slotDist? [⟨19, 0⟩] s = some d → bd ≤ d)) :=
  ⟨by decide, by decide, by decide,
   pick_best_slot_spec [⟨1, some "9:00 AM", none, none⟩,
       ⟨2, some "4:00 PM", none, none⟩] ["7:00 PM"] 60 [⟨19, 0⟩]
     (by decide) (by decide) (by decide)⟩

/-! ## C4 — poll_count monotone and bounded -/

/-- Each engine transition keeps `max_attempts`, never decreases
`poll_count`, and preserves `poll_count ≤ max_attempts`. -/
theorem engineStep_counts {j j' : SniperJob} (h : EngineStep j j') :
    j.poll_count ≤ j'.poll_count ∧ j'.max_attempts = j.max_attempts ∧
    (j.poll_count ≤ j.max_attempts → j'.poll_count ≤ j'.max_attempts) := by
  cases h with
  | mark_active =>
    rw [apply_job_patch_poll_count, apply_job_patch_max_attempts]
    exact ⟨le_refl _, rfl, fun h => h⟩
  | claim_job h =>
    rw [apply_job_patch_poll_count, apply_job_patch_max_attempts]
    exact ⟨le_refl _, rfl, fun h => h⟩
  | revert_pending =>
    rw [apply_job_patch_poll_count, apply_job_patch_max_attempts]
    exact ⟨le_refl _, rfl, fun h => h⟩
  | mark_failed h =>
    rw [apply_job_patch_poll_count, apply_job_patch_max_attempts]
    exact ⟨le_refl _, rfl, fun h => h⟩
  | increment h =>
    exact ⟨Nat.le_succ _, rfl, fun _ => h⟩
  | complete rid =>
    rw [apply_job_patch_poll_count, apply_job_patch_max_attempts]
    exact ⟨le_refl _, rfl, fun h => h⟩
  | cancel_sibling h =>
    rw [apply_job_patch_poll_count, apply_job_patch_max_attempts]
    exact ⟨le_refl _, rfl, fun h => h⟩

theorem engineReach_poll_count_mono {a b : SniperJob}
    (h : Relation.ReflTransGen EngineStep a b) :
    a.poll_count ≤ b.poll_count := by
  induction h with
  | refl => exact le_refl _
  | tail _ hbc ih => exact le_trans ih (engineStep_counts hbc).1

theorem engineReach_inv {a b : SniperJob}
    (ha : a.poll_count ≤ a.max_attempts)
    (h : Relation.ReflTransGen EngineStep a b) :
    b.poll_count ≤ b.max_attempts := by
  induction h with
  | refl => exact ha
  | tail _ hbc ih => exact (engineStep_counts hbc).2.2 ih

/-- C4: for a job driven only by the engine's operations (the transitions
of `EngineStep`, each one a store write `run_job` or the claim performs,
with the guards the code checks on the freshly reloaded record), starting
from a fresh record with `poll_count = 0`: the poll count never decreases
along the rest of the lifetime, it never exceeds `max_attempts`, and in
particular at any transition that records `failed` the resulting record
still satisfies `poll_count ≤ max_attempts` (the engine checks
`poll_count >= max_attempts` before incrementing, so the count stops at the
bound). -/
theorem poll_count_monotone_and_bounded (j0 j : SniperJob)
    (h0 : j0.poll_count = 0)
    (hreach : Relation.ReflTransGen EngineStep j0 j) :
    (∀ k, Relation.ReflTransGen EngineStep j k → j.poll_count ≤ k.poll_count) ∧
    j.poll_count ≤ j.max_attempts ∧
    (∀ k, EngineStep j k → k.status = "failed" →
      k.poll_count ≤ k.max_attempts) := by
  have hinv : j.poll_count ≤ j.max_attempts :=
    engineReach_inv (by rw [h0]; exact Nat.zero_le _) hreach
  refine ⟨fun k hk => engineReach_poll_count_mono hk, hinv, ?_⟩
  intro k hk _
  exact (engineStep_counts hk).2.2 hinv

/-- Witness for C4 at a fresh job after one claim, one increment and the
failure transition of an exhausted job. -/
theorem poll_count_monotone_and_bounded_witness :
    (⟨7, "v", "2026-03-01", ["7:00 PM"], 2, 60, "pending", 0, 1,
      "2026-02-22T09:00:00", true, none⟩ : SniperJob).poll_count = 0 ∧
    ((∀ k, Relation.ReflTransGen EngineStep
        ⟨7, "v", "2026-03-01", ["7:00 PM"], 2, 60, "pending", 0, 1,
          "2026-02-22T09:00:00", true, none⟩ k →
        (⟨7, "v", "2026-03-01", ["7:00 PM"], 2, 60, "pending", 0, 1,
          "2026-02-22T09:00:00", true, none⟩ : SniperJob).poll_count ≤
          k.poll_count) ∧
    (⟨7, "v", "2026-03-01", ["7:00 PM"], 2, 60, "pending", 0, 1,
      "2026-02-22T09:00:00", true, none⟩ : SniperJob).poll_count ≤
      (⟨7, "v", "2026-03-01", ["7:00 PM"], 2, 60, "pending", 0, 1,
        "2026-02-22T09:00:00", true, none⟩ : SniperJob).max_attempts ∧
    (∀ k, EngineStep
        ⟨7, "v", "2026-03-01", ["7:00 PM"], 2, 60, "pending", 0, 1,
          "2026-02-22T09:00:00", true, none⟩ k →
      k.status = "failed" → k.poll_count ≤ k.max_attempts)) :=
  ⟨rfl,
   poll_count_monotone_and_bounded
     ⟨7, "v", "2026-03-01", ["7:00 PM"], 2, 60, "pending", 0, 1,
       "2026-02-22T09:00:00", true, none⟩
     ⟨7, "v", "2026-03-01", ["7:00 PM"], 2, 60, "pending", 0, 1,
       "2026-02-22T09:00:00", true, none⟩
     rfl Relation.ReflTransGen.refl⟩

/-! ## C2 — postconditions of a successful booking -/

theorem apply_job_patch_reservation_id_some (s : Option String)
    (r : Option Nat) (j : SniperJob) :
    (apply_job_patch ⟨s, some r⟩ j).reservation_id = r := by
  cases s <;> rfl

theorem add_reservation_snd_jobs (st : StoreState) (p n d t : String)
    (ps : Nat) (cn : Option String) (s : String) :
    (add_reservation st p n d t ps cn s).2.jobs = st.jobs := rfl

theorem get_sniper_job_add_reservation (st : StoreState) (p n d t : String)
    (ps : Nat) (cn : Option String) (s : String) (i : Nat) :
    get_sniper_job (add_reservation st p n d t ps cn s).2 i =
      get_sniper_job st i := rfl

theorem increment_poll_count_reservations (st : StoreState) (i : Nat) :
    (increment_poll_count st i).1.reservations = st.reservations := rfl

theorem cancel_sibling_reservations (st : StoreState) (i : Nat)
    (v d : String) :
    (cancel_sibling_sniper_jobs st i v d).1.reservations = st.reservations := rfl

theorem JobsRel.refl (job_id : Nat) (l : List SniperJob) :
    JobsRel job_id l l :=
  ⟨fun x => x, by simp, fun x => ⟨rfl, rfl, rfl⟩, fun _ _ => rfl⟩

theorem JobsRel.stepMap {job_id : Nat} {orig cur : List SniperJob}
    (h : JobsRel job_id orig cur) (f : SniperJob → SniperJob)
    (hid : ∀ j, (f j).id = j.id) (hv : ∀ j, (f j).venue_slug = j.venue_slug)
    (hd : ∀ j, (f j).date = j.date) (hskip : ∀ j, j.id ≠ job_id → f j = j) :
    JobsRel job_id orig (cur.map f) := by
  obtain ⟨G, rfl, hpres, hsk⟩ := h
  refine ⟨fun x => f (G x), by rw [List.map_map]; rfl, ?_, ?_⟩
  · intro x
    exact ⟨by rw [hid, (hpres x).1], by rw [hv, (hpres x).2.1],
      by rw [hd, (hpres x).2.2]⟩
  · intro x hx
    show f (G x) = x
    rw [hsk x hx, hskip x hx]

/-- The row-wise rewrite performed by `increment_poll_count` qualifies for
`JobsRel`. -/
theorem JobsRel.increment {job_id : Nat} {orig : List SniperJob}
    {st : StoreState} (h : JobsRel job_id orig st.jobs) :
    JobsRel job_id orig (increment_poll_count st job_id).1.jobs := by
  refine h.stepMap _ ?_ ?_ ?_ ?_ <;> intro j
  · split <;> rfl
  · split <;> rfl
  · split <;> rfl
  · intro hj
    have : (j.id == job_id) = false := by simpa using hj
    simp [this]

/-- The row-wise rewrite performed by `update_sniper_job` qualifies for
`JobsRel`. -/
theorem JobsRel.update {job_id : Nat} {orig : List SniperJob}
    {st : StoreState} (p : JobPatch) (h : JobsRel job_id orig st.jobs) :
    JobsRel job_id orig (update_sniper_job st job_id p).1.jobs := by
  refine h.stepMap _ ?_ ?_ ?_ ?_ <;> intro j
  · split
    · rw [apply_job_patch_id]
    · rfl
  · split
    · rw [apply_job_patch_venue_slug]
    · rfl
  · split
    · rw [apply_job_patch_date]
    · rfl
  · intro hj
    have : (j.id == job_id) = false := by simpa using hj
    simp [this]

/-- Looking the running job up through a `JobsRel` rewrite. -/
theorem JobsRel.get_eq {job_id : Nat} {orig : List SniperJob}
    {G : SniperJob → SniperJob} {st : StoreState} {job0 : SniperJob}
    (hmap : st.jobs = orig.map G) (hid : ∀ x, (G x).id = x.id)
    (h0 : orig.find? (fun j => j.id == job_id) = some job0) :
    get_sniper_job st job_id = some (G job0) := by
  unfold get_sniper_job
  rw [hmap, find?_id_map _ _ _ hid, h0]
  rfl

theorem add_reservation_snd_reservations (st : StoreState) (p n d t : String)
    (ps : Nat) (cn : Option String) (s : String) :
    (add_reservation st p n d t ps cn s).2.reservations =
      st.reservations ++ [⟨st.next_reservation_id, p, n, d, t, ps, cn, s⟩] := rfl

theorem increment_jobs_eq (st : StoreState) (i : Nat) :
    (increment_poll_count st i).1.jobs =
      st.jobs.map (fun j => if j.id == i then bump_poll j else j) := rfl

theorem update_sniper_job_jobs_eq (st : StoreState) (i : Nat) (p : JobPatch) :
    (update_sniper_job st i p).1.jobs =
      st.jobs.map (fun j => if j.id == i then apply_job_patch p j else j) := rfl

theorem cancel_sibling_jobs_eq (st : StoreState) (i : Nat) (v d : String) :
    (cancel_sibling_sniper_jobs st i v d).1.jobs =
      st.jobs.map (fun j =>
        if j.id != i && j.venue_slug == v && j.date == d &&
            !terminalStatuses.contains j.status then
          apply_job_patch ⟨some "cancelled", none⟩ j
        else j) := rfl

/-- The loop part of C2: if the poll loop ends with outcome `booked`, the
final state holds a confirmed reservation linked to the (now `completed`)
job, every sibling that was non-terminal at entry is now `cancelled`, and a
success notification was emitted. -/
theorem run_job_loop_booked (job_id : Nat) (orig : StoreState)
    (job0 : SniperJob) (h0 : get_sniper_job orig job_id = some job0) :
    ∀ (sched : List StepEnv) (es : EngineState) (job : SniperJob)
      (ec : Nat) (errs : List (String × Nat)) (es' : EngineState)
      (r : RunResult),
      JobsRel job_id orig.jobs es.store.jobs →
      run_job_loop job_id sched es job ec errs = some (es', r) →
      r.outcome = "booked" →
      ((∃ resv, resv ∈ es'.store.reservations ∧ resv.status = "confirmed" ∧
        ∃ j', get_sniper_job es'.store job_id = some j' ∧
          j'.status = "completed" ∧ j'.reservation_id = some resv.id) ∧
      (∀ j ∈ orig.jobs, j.id ≠ job_id → j.venue_slug = job0.venue_slug →
        j.date = job0.date → terminalStatuses.contains j.status = false →
        apply_job_patch ⟨some "cancelled", none⟩ j ∈ es'.store.jobs) ∧
      (∃ job2 result, PollResult.booked result = true ∧
        NotifyEvent.success job2 result ∈ es'.notifications)) := by
  intro sched
  induction sched with
  | nil =>
    intro es job ec errs es' r _ hrun _
    exact absurd hrun (by simp [run_job_loop])
  | cons step rest ih =>
    intro es job ec errs es' r hrel hrun hb
    obtain ⟨G, hmap, hpres, hsk⟩ := hrel
    have hget : get_sniper_job es.store job_id = some (G job0) :=
      JobsRel.get_eq hmap (fun x => (hpres x).1) h0
    simp only [run_job_loop] at hrun
    split at hrun
    · -- shutdown observed: outcome is "shutdown"
      injection hrun with hpair
      have hsnd := congrArg Prod.snd hpair
      dsimp only at hsnd
      rw [← hsnd] at hb
      simp at hb
    · split at hrun
      · exact absurd hrun (by simp)
      · rename_i jobR heq
        have hjr : jobR = G job0 := Option.some.inj (heq.symm.trans hget)
        subst hjr
        split at hrun
        · -- exhausted: outcome is "failed"
          injection hrun with hpair
          have hsnd := congrArg Prod.snd hpair
          dsimp only at hsnd
          rw [← hsnd] at hb
          simp at hb
        · split at hrun
          · -- the poll booked
            rename_i hbk
            split at hrun
            · exact absurd hrun (by simp)
            · rename_i job2 hget2
              have hget2orig := hget2
              injection hrun with hpair
              have hfst := congrArg Prod.fst hpair
              dsimp only at hfst
              subst hfst
              rw [get_sniper_job_cancel_self, get_sniper_job_update_self,
                get_sniper_job_add_reservation, get_sniper_job_increment_self,
                hget, Option.map_some', Option.map_some'] at hget2
              injection hget2 with hj2
              refine ⟨?_, ?_, ?_⟩
              · refine ⟨⟨(increment_poll_count es.store job_id).1.next_reservation_id,
                  "resy", (G job0).venue_slug, (G job0).date,
                  ((poll_once step.poll (G job0)).time.getD ""),
                  (G job0).party_size,
                  (poll_once step.poll (G job0)).reservation_id, "confirmed"⟩,
                  ?_, rfl, job2, ?_, ?_, ?_⟩
                · rw [cancel_sibling_reservations,
                    update_sniper_job_store_reservations,
                    add_reservation_snd_reservations]
                  exact List.mem_append_right _ (List.mem_singleton.mpr rfl)
                · exact hget2orig
                · rw [← hj2, apply_job_patch_status_some]
                · rw [← hj2, apply_job_patch_reservation_id_some]
                  rfl
              · intro j hj hjid hjv hjd hjterm
                have hbeq : (j.id == job_id) = false := by simpa using hjid
                have h1 : j ∈ es.store.jobs := by
                  rw [hmap]
                  exact List.mem_map.mpr ⟨j, hj, hsk j hjid⟩
                rw [cancel_sibling_jobs_eq]
                refine List.mem_map.mpr ⟨j, ?_, ?_⟩
                · rw [update_sniper_job_jobs_eq, add_reservation_snd_jobs,
                    increment_jobs_eq]
                  exact List.mem_map.mpr ⟨j,
                    List.mem_map.mpr ⟨j, h1, by simp [hbeq]⟩, by simp [hbeq]⟩
                · have hcond : (j.id != job_id &&
                      j.venue_slug == (G job0).venue_slug &&
                      j.date == (G job0).date &&
                      !terminalStatuses.contains j.status) = true := by
                    rw [(hpres job0).2.1, (hpres job0).2.2, hjv, hjd, hjterm]
                    simp [bne, hbeq]
                  rw [if_pos hcond]
              · exact ⟨job2, poll_once step.poll (G job0), hbk,
                  List.mem_append_right _ (List.mem_singleton.mpr rfl)⟩
          · -- not booked: the loop continues and the result comes from there
            exact ih ⟨(increment_poll_count es.store job_id).1, es.notifications⟩
              (G job0) _ _ es' r
              (JobsRel.increment ⟨G, hmap, hpres, hsk⟩) hrun hb

/-- C2: when a `run_job` call reports outcome `booked`, the final store
holds a reservation with status `confirmed` whose id is linked into the
job, the job is marked `completed`, every job that targeted the same venue
and date and was non-terminal at entry has been cancelled through the
store's sibling-cancellation operation, and a success notification was
emitted; all of this before the call returned the booked outcome. -/
theorem run_job_booked_postconditions (sched : List StepEnv)
    (es : EngineState) (job_id : Nat) (job0 : SniperJob) (es' : EngineState)
    (r : RunResult) (h0 : get_sniper_job es.store job_id = some job0)
    (hrun : run_job sched es job_id = some (es', r))
    (hb : r.outcome = "booked") :
    (∃ resv, resv ∈ es'.store.reservations ∧ resv.status = "confirmed" ∧
      ∃ j', get_sniper_job es'.store job_id = some j' ∧
        j'.status = "completed" ∧ j'.reservation_id = some resv.id) ∧
    (∀ j ∈ es.store.jobs, j.id ≠ job_id → j.venue_slug = job0.venue_slug →
      j.date = job0.date → terminalStatuses.contains j.status = false →
      apply_job_patch ⟨some "cancelled", none⟩ j ∈ es'.store.jobs) ∧
    (∃ job2 result, PollResult.booked result = true ∧
      NotifyEvent.success job2 result ∈ es'.notifications) := by
  simp only [run_job] at hrun
  split at hrun
  · rename_i heq
    rw [h0] at heq
    cases heq
  · rename_i job heq
    have hj : job = job0 := Option.some.inj (heq.symm.trans h0)
    subst hj
    exact run_job_loop_booked job_id es.store job h0 sched
      ⟨(update_sniper_job es.store job_id ⟨some "active", none⟩).1,
        es.notifications⟩ job 0 [] es' r
      (JobsRel.update ⟨some "active", none⟩ (JobsRel.refl job_id es.store.jobs))
      hrun hb

/-- Witness for C2: the success run of a concrete job with one pending
sibling targeting the same venue and date. -/
theorem run_job_booked_postconditions_witness :
    get_sniper_job (⟨[exJob, exSibling], [], 1⟩ : StoreState) 1 = some exJob ∧
    run_job [⟨false, exGoodEnv⟩] ⟨⟨[exJob, exSibling], [], 1⟩, []⟩ 1 =
      some (⟨⟨[⟨1, "fish-cheeks", "2026-03-01", ["7:00 PM"], 2, 60,
          "completed", 1, 3, "2026-02-22T09:00:00", true, some 1⟩,
        ⟨2, "fish-cheeks", "2026-03-01", ["7:30 PM"], 2, 60, "cancelled", 1,
          3, "2026-02-22T09:00:00", true, none⟩],
        [⟨1, "resy", "fish-cheeks", "2026-03-01", "7:00 PM", 2,
          some "RES123", "confirmed"⟩], 2⟩,
        [NotifyEvent.success
          ⟨1, "fish-cheeks", "2026-03-01", ["7:00 PM"], 2, 60, "completed",
            1, 3, "2026-02-22T09:00:00", true, some 1⟩
          ⟨true, some "7:00 PM", some "RES123", none, false⟩]⟩,
        ⟨"booked", none, some "7:00 PM", some "RES123", some 1⟩) ∧
    (⟨"booked", none, some "7:00 PM", some "RES123", some 1⟩ :
      RunResult).outcome = "booked" ∧
    ((∃ resv, resv ∈ (⟨[⟨1, "fish-cheeks", "2026-03-01", ["7:00 PM"], 2, 60,
          "completed", 1, 3, "2026-02-22T09:00:00", true, some 1⟩,
        ⟨2, "fish-cheeks", "2026-03-01", ["7:30 PM"], 2, 60, "cancelled", 1,
          3, "2026-02-22T09:00:00", true, none⟩],
        [⟨1, "resy", "fish-cheeks", "2026-03-01", "7:00 PM", 2,
          some "RES123", "confirmed"⟩], 2⟩ : StoreState).reservations ∧
        resv.status = "confirmed" ∧
      ∃ j', get_sniper_job (⟨[⟨1, "fish-cheeks", "2026-03-01", ["7:00 PM"],
          2, 60, "completed", 1, 3, "2026-02-22T09:00:00", true, some 1⟩,
        ⟨2, "fish-cheeks", "2026-03-01", ["7:30 PM"], 2, 60, "cancelled", 1,
          3, "2026-02-22T09:00:00", true, none⟩],
        [⟨1, "resy", "fish-cheeks", "2026-03-01", "7:00 PM", 2,
          some "RES123", "confirmed"⟩], 2⟩ : StoreState) 1 = some j' ∧
        j'.status = "completed" ∧ j'.reservation_id = some resv.id) ∧
    (∀ j ∈ (⟨[exJob, exSibling], [], 1⟩ : StoreState).jobs, j.id ≠ 1 →
      j.venue_slug = exJob.venue_slug → j.date = exJob.date →
      terminalStatuses.contains j.status = false →
      apply_job_patch ⟨some "cancelled", none⟩ j ∈
        ([⟨1, "fish-cheeks", "2026-03-01", ["7:00 PM"], 2, 60, "completed",
            1, 3, "2026-02-22T09:00:00", true, some 1⟩,
          ⟨2, "fish-cheeks", "2026-03-01", ["7:30 PM"], 2, 60, "cancelled",
            1, 3, "2026-02-22T09:00:00", true, none⟩] : List SniperJob)) ∧
    (∃ job2 result, PollResult.booked result = true ∧
      NotifyEvent.success job2 result ∈
        ([NotifyEvent.success
          ⟨1, "fish-cheeks", "2026-03-01", ["7:00 PM"], 2, 60, "completed",
            1, 3, "2026-02-22T09:00:00", true, some 1⟩
          ⟨true, some "7:00 PM", some "RES123", none, false⟩] :
          List NotifyEvent))) :=
  ⟨by decide, by decide, rfl,
   run_job_booked_postconditions [⟨false, exGoodEnv⟩]
     ⟨⟨[exJob, exSibling], [], 1⟩, []⟩ 1 exJob
     ⟨⟨[⟨1, "fish-cheeks", "2026-03-01", ["7:00 PM"], 2, 60, "completed", 1,
         3, "2026-02-22T09:00:00", true, some 1⟩,
       ⟨2, "fish-cheeks", "2026-03-01", ["7:30 PM"], 2, 60, "cancelled", 1,
         3, "2026-02-22T09:00:00", true, none⟩],
       [⟨1, "resy", "fish-cheeks", "2026-03-01", "7:00 PM", 2,
         some "RES123", "confirmed"⟩], 2⟩,
       [NotifyEvent.success
         ⟨1, "fish-cheeks", "2026-03-01", ["7:00 PM"], 2, 60, "completed",
           1, 3, "2026-02-22T09:00:00", true, some 1⟩
         ⟨true, some "7:00 PM", some "RES123", none, false⟩]⟩
     ⟨"booked", none, some "7:00 PM", some "RES123", some 1⟩
     (by decide) (by decide) rfl⟩

end Sniper
